import Mathlib

/-!
gomidl: the Go code generator for COM-style interfaces

A shallow embedding of `backend/generator.go` (and of the AST node types of
`ast/ast.go` that it consumes) together with theorems about the text and the
dependency set that the generator produces.

Conventions of the embedding:

* Go strings are `String`; `fmt.Sprintf`/`Printf` calls are written as the
  concatenation that the format string denotes.
* `bytes.Buffer` is the text accumulated so far.
* `map[string]struct{}` (a set of strings) is a duplicate-free list in insertion
  order; a nil map is the empty list.
* `log.Fatalln` terminates the process: the function returns `none`.
* Go `int` is `Int`.
-/

namespace Gomidl

/-! ## AST (ast/ast.go) -/

/-- Modelled from the spec: `scanner.TokenType` is declared in the scanner package,
which is not part of the sources at hand.  The generator only distinguishes the two
direction attributes `scanner.IN` and `scanner.OUT`; every other token type is
`other`. -/
inductive TokenType where
  | IN
  | OUT
  | other (tag : Nat)
  deriving DecidableEq, Repr

structure AttributeNode where
  Val : String
  Typ : TokenType
  deriving DecidableEq, Repr

structure ParamAttrNode where
  Val : String
  Typ : TokenType
  deriving DecidableEq, Repr

structure ParamNode where
  Attributes : List ParamAttrNode
  Typ : String
  Indirections : Int
  Name : String
  Array : Bool
  deriving DecidableEq, Repr

structure ReturnNode where
  Typ : String
  Indirections : Int
  Array : Bool
  deriving DecidableEq, Repr

structure MethodNode where
  Name : String
  ReturnType : Option ReturnNode
  Params : List ParamNode
  deriving DecidableEq, Repr

structure InterfaceNode where
  Name : String
  ParentName : String
  Attributes : List AttributeNode
  Methods : List MethodNode
  deriving DecidableEq, Repr

structure EnumValueNode where
  Name : String
  Val : String
  deriving DecidableEq, Repr

structure EnumNode where
  Name : String
  Values : List EnumValueNode
  deriving DecidableEq, Repr

structure TypedefNode where
  Name : String
  Typ : String
  Indirection : Int
  Attributes : List AttributeNode
  deriving DecidableEq, Repr

/-! ## Go standard library functions used by the generator -/

/-- The Go function `strings.HasPrefix s p`. -/
def stringsHasPrefix (s p : String) : Bool :=
  p.data.isPrefixOf s.data

/-- The Go function `strings.Count s "*"`: the number of occurrences of one character. -/
def stringsCount (s : String) (c : Char) : Nat :=
  s.data.count c

/-- The Go function `strings.Join elems sep`. -/
def stringsJoin : List String → String → String
  | [], _ => ""
  | [a], _ => a
  | a :: b :: rest, sep => a ++ sep ++ stringsJoin (b :: rest) sep

/-- The text of the Go verb `%d` applied to a non-negative integer. -/
def fmtInt (n : Nat) : String :=
  Nat.repr n

/-! ## Generator state (backend/generator.go) -/

structure Generator where
  packages : List String
  buf : String
  deriving DecidableEq, Repr

def typeMap : List (String × String) :=
  [ ("LONG", "int32"),
    ("DWORD", "uint32"),
    ("ULONG", "uint32"),
    ("BYTE", "byte"),
    ("LPWSTR", "string"),
    ("LPCWSTR", "string"),
    ("GUID", "ole.GUID"),
    ("UINT_PTR", "*int32"),
    ("BOOL", "bool"),
    ("REFGUID", "*ole.GUID"),
    ("HWND", "wintypes.HWND"),
    ("HBITMAP", "wintypes.HBITMAP"),
    ("REFPROPERTYKEY", "wintypes.PROPERTYKEY"),
    ("PROPVARIANT", "uintptr") ]

def olePackageStruct : List String :=
  [ "IUnknown" ]

/-- Appends already formatted text to the buffer (`fmt.Fprintf(&g.buf, ...)`). -/
def Generator.Printf (g : Generator) (s : String) : Generator :=
  ⟨g.packages, g.buf ++ s⟩

def Generator.addPackage (g : Generator) (pkg : String) : Generator :=
  if pkg ∈ g.packages then g else ⟨g.packages ++ [pkg], g.buf⟩

def olePackage : String := "ole \"github.com/go-ole/go-ole\""

def wintypesPackage : String := "\"github.com/jd3nn1s/gomidl/wintypes\""

/-- The first statement of `mapType`: `if v, ok := typeMap[t]; ok { t = v }`. -/
def resolveType (t : String) : String :=
  match typeMap.lookup t with
  | some v => v
  | none => t

def Generator.mapType (g : Generator) (t : String) : String × Generator :=
  let t := resolveType t
  if stringsHasPrefix t "wintypes." then
    (t, g.addPackage wintypesPackage)
  else if stringsHasPrefix t "ole." then
    (t, g.addPackage olePackage)
  else
    (t, g)

/-- The body of the loop of `genEnum`: the line printed for the value at index `i`. -/
def genEnumLine (enumName : String) (i : Nat) (v : EnumValueNode) : String :=
  let enumVal := if (v.Val = "" ∨ v.Val = "0") ∧ i = 0 then "iota" else v.Val
  if enumVal = "" then
    v.Name ++ "\n"
  else
    v.Name ++ " " ++ enumName ++ " = " ++ enumVal ++ "\n"

/-- The loop `for i, v := range n.Values` of `genEnum`, started at index `i`. -/
def genEnumValues (g : Generator) (enumName : String) : Nat → List EnumValueNode → Generator
  | _, [] => g
  | i, v :: vs => genEnumValues (g.Printf (genEnumLine enumName i v)) enumName (i + 1) vs

def Generator.genEnum (g : Generator) (n : EnumNode) : Generator :=
  let g := g.Printf ("type " ++ n.Name ++ " int\n")
  let g := g.Printf "const (\n"
  let g := genEnumValues g n.Name 0 n.Values
  g.Printf ")\n"

/-- The concatenation of a list of texts, in order. -/
def concatStr : List String → String
  | [] => ""
  | s :: ss => s ++ concatStr ss

/-- The lines that the loop of `genEnum` prints for the values `vs`, the first of which
has index `i`. -/
def enumLinesFrom (enumName : String) : Nat → List EnumValueNode → List String
  | _, [] => []
  | i, v :: vs => genEnumLine enumName i v :: enumLinesFrom enumName (i + 1) vs

def Generator.genTypedef (g : Generator) (n : TypedefNode) : Generator :=
  let r := g.mapType n.Typ
  let t := if r.1 = "void" then "struct\x7b\x7d" else r.1
  r.2.Printf ("type " ++ n.Name ++ " " ++ t ++ "\n")

/-- The text `ptrs` built by the first loop of `genParam`: one `*` per indirection. -/
def genParamPtrs (indirections : Int) : String :=
  String.mk (List.replicate indirections.toNat '*')

/-- The body of the attribute loop of `genParam`: the comment word of one attribute,
if it is a direction attribute. -/
def genParamAttr (a : ParamAttrNode) : Option String :=
  let c := match a.Typ with
    | TokenType.IN => "in"
    | TokenType.OUT => "out"
    | TokenType.other _ => ""
  if c ≠ "" then
    some (if a.Val ≠ "" then c ++ "(" ++ a.Val ++ ")" else c)
  else
    none

def Generator.genParam (g : Generator) (n : ParamNode) : (String × String) × Generator :=
  let r := g.mapType n.Typ
  let param := n.Name ++ " " ++ genParamPtrs n.Indirections ++ r.1
  let attrs := n.Attributes.filterMap genParamAttr
  ((param, "[" ++ stringsJoin attrs ", " ++ "]"), r.2)

def logPackage : String := "\"log\""

/-- The local `indirections` of `genSyscallParams`: the declared pointer depth plus the
number of `*` in the mapped type. -/
def effectiveIndirection (param : ParamNode) : Int :=
  param.Indirections + (stringsCount (resolveType param.Typ) '*' : Nat)

def Generator.genSyscallParams (g : Generator) (param : ParamNode) :
    Option ((List String × String) × Generator) :=
  let r := g.mapType param.Typ
  let goType := r.1
  let g := r.2
  let indirections : Int := param.Indirections + (stringsCount goType '*' : Nat)
  if goType = "VARIANT" ∧ indirections = 0 then
    some (([param.Name ++ "V0", param.Name ++ "V1", param.Name ++ "V2"], ""), g)
  else if goType = "bool" ∧ indirections = 0 then
    some ((["uintptr(" ++ param.Name ++ "_bool)"],
      "var " ++ param.Name ++ "_bool int\n" ++
        "if " ++ param.Name ++ " == true \x7b " ++ param.Name ++ "_bool = 1 \x7d"), g)
  else if indirections > 0 then
    some ((["uintptr(unsafe.Pointer(" ++ param.Name ++ "))"], ""), g)
  else if goType = "string" then
    if param.Typ = "LPWSTR" ∨ param.Typ = "LPCWSTR" then
      let g := g.addPackage logPackage
      some ((["uintptr(unsafe.Pointer(&" ++ param.Name ++ "_rawval[0]))"],
        param.Name ++ "_rawval, " ++ param.Name ++ "_err := utf16Encoder.Bytes([]byte("
          ++ param.Name ++ "))\n" ++
        "if " ++ param.Name ++ "_err != nil \x7b log.Fatalln(\"unable to utf-16 encode:\", "
          ++ param.Name ++ "_err) \x7d\n"), g)
    else
      none
  else
    some ((["uintptr(" ++ param.Name ++ ")"], ""), g)

/-- The loop of `genInterface` that prints one vtable field per method. -/
def genVtblFields (g : Generator) : List MethodNode → Generator
  | [] => g
  | m :: ms => genVtblFields (g.Printf (m.Name ++ " uintptr\n")) ms

/-- The first loop over `m.Params` in a method stub: the declared parameters. -/
def genStubParams (g : Generator) : List ParamNode → Generator
  | [] => g
  | n :: ns =>
    let r := g.genParam n
    genStubParams (r.2.Printf (r.1.1 ++ ", // " ++ r.1.2 ++ "\n")) ns

/-- The second loop over `m.Params` in a method stub: the slots of every parameter are
appended to `syscallParams` and its conversion code is printed. -/
def genStubSyscallParams (g : Generator) (syscallParams : List String) :
    List ParamNode → Option (List String × Generator)
  | [] => some (syscallParams, g)
  | n :: ns =>
    match g.genSyscallParams n with
    | none => none
    | some r => genStubSyscallParams (r.2.Printf (r.1.2 ++ "\n")) (syscallParams ++ r.1.1) ns

/-- The if-chain of `genInterface` that chooses `syscallFunc` and `numSyscallRequired`
from `numSyscallParams`. -/
def selectSyscall (numSyscallParams : Nat) : String × Nat :=
  if numSyscallParams ≤ 3 then ("Syscall", 3)
  else if numSyscallParams ≤ 6 then ("Syscall6", 6)
  else if numSyscallParams ≤ 9 then ("Syscall9", 9)
  else ("Syscall", 3)

/-- The padding loop `for i := len(syscallParams); i < numSyscallRequired-1; i++`. -/
def padSyscallParams (syscallParams : List String) (numSyscallRequired : Nat) : List String :=
  syscallParams ++ List.replicate (numSyscallRequired - 1 - syscallParams.length) "0"

/-- The loop that prints every entry of `syscallParams` on a line of its own. -/
def genCallArgs (g : Generator) : List String → Generator
  | [] => g
  | p :: ps => genCallArgs (g.Printf (p ++ ",\n")) ps

def syscallPackage : String := "\"syscall\""

def unsafePackage : String := "\"unsafe\""

/-- The body of the loop `for _, m := range n.Methods` that emits the call stubs. -/
def genMethodStub (g : Generator) (ifaceName : String) (m : MethodNode) : Option Generator :=
  let g := g.Printf ("func (v *" ++ ifaceName ++ ") " ++ m.Name ++ "(\n")
  let g := genStubParams g m.Params
  let g := g.Printf ") error \x7b\n"
  match genStubSyscallParams g [] m.Params with
  | none => none
  | some r =>
    let sel := selectSyscall (m.Params.length + 1)
    let syscallParams := padSyscallParams r.1 sel.2
    let g := r.2.Printf ("hr, _, _ := syscall." ++ sel.1 ++ "(\n")
    let g := g.Printf ("v.VTable()." ++ m.Name ++ ",\n")
    let g := g.Printf (fmtInt (syscallParams.length + 1) ++ ",\n")
    let g := g.Printf "uintptr(unsafe.Pointer(v)),\n"
    let g := genCallArgs g syscallParams
    let g := g.Printf ")\n"
    let g := g.Printf "if hr != 0 \x7b return ole.NewError(hr) \x7d\n"
    let g := g.Printf "return nil"
    let g := g.Printf "\x7d\n"
    some (g.addPackage syscallPackage)

/-- The loop `for _, m := range n.Methods` that emits the call stubs. -/
def genMethodStubs (g : Generator) (ifaceName : String) : List MethodNode → Option Generator
  | [] => some g
  | m :: ms =>
    match genMethodStub g ifaceName m with
    | none => none
    | some g1 => genMethodStubs g1 ifaceName ms

/-- The parent name after defaulting: `IUnknown` when no parent is named. -/
def parentName (n : InterfaceNode) : String :=
  if n.ParentName = "" then "IUnknown" else n.ParentName

/-- The value of `pn` when the vtable is printed: qualified with `ole.` when the parent
is a structure of the ole package. -/
def qualifiedParentName (n : InterfaceNode) : String :=
  if parentName n ∈ olePackageStruct then "ole." ++ parentName n else parentName n

def Generator.genInterface (g : Generator) (n : InterfaceNode) : Option Generator :=
  if n.Methods.length = 0 then
    some g
  else
    let g := g.Printf "/////////////////////////////////////////\n"
    let g := g.Printf ("// " ++ n.Name ++ "\n")
    let g := g.Printf ("\ntype " ++ n.Name ++ "Vtbl struct \x7b\n")
    let g := if parentName n ∈ olePackageStruct then g.addPackage olePackage else g
    let pn := qualifiedParentName n
    let g := g.Printf (pn ++ "Vtbl\n")
    let g := genVtblFields g n.Methods
    let g := g.Printf "\x7d\n\n"
    let g := g.Printf ("type " ++ n.Name ++ " struct \x7b\n")
    let g := g.Printf (pn ++ "\n")
    let g := g.Printf "\x7d\n\n"
    let g := g.Printf ("func (v *" ++ n.Name ++ ") VTable() *" ++ n.Name ++ "Vtbl \x7b\n")
    let g := g.Printf ("return (*" ++ n.Name ++ "Vtbl)(unsafe.Pointer(v.RawVTable))\n")
    let g := g.Printf "\x7d\n\n"
    let g := g.addPackage unsafePackage
    genMethodStubs g n.Name n.Methods

/-- The slots that `genSyscallParams` returns for one parameter (`none` when it aborts).
The slots do not depend on the generator state, so the empty state is used. -/
def paramSlots (p : ParamNode) : Option (List String) :=
  ((⟨[], ""⟩ : Generator).genSyscallParams p).map (fun r => r.1.1)

/-- The flattened slot list of a method: the slots of all its parameters, in parameter
order, as the second loop of the stub accumulates them (`none` when a parameter makes
`genSyscallParams` abort). -/
def methodSlots (m : MethodNode) : Option (List String) :=
  (genStubSyscallParams ⟨[], ""⟩ [] m.Params).map (fun r => r.1)

/-- Whether the text `sub` occurs in the text `s`. -/
def stringsContains (s sub : String) : Bool :=
  s.data.tails.any (fun t => sub.data.isPrefixOf t)

/-- Following the spec's words: "the supported fixed-arity tiers are {3, 6, 9}; select
the smallest tier ≥ total"; there is no tier for a total above 9. -/
def specTier (total : Nat) : Option Nat :=
  [3, 6, 9].find? (fun tier => decide (total ≤ tier))

/-- The loop `for k := range g.packages` of `genPackage`.  Go visits every key of a map
exactly once, in an order that the language leaves unspecified; `order` is the order
of that visit. -/
def genPackageImports (g : Generator) : List String → Generator
  | [] => g
  | k :: ks => genPackageImports (g.Printf (k ++ "\n")) ks

/-- The function `genPackage`; `order` is the order in which the range loop visits the
keys of `g.packages` (a permutation of the dependency set). -/
def Generator.genPackage (g : Generator) (pkgName : String) (order : List String) :
    Generator :=
  let buf := g.buf
  let g : Generator := ⟨g.packages, ""⟩
  let g := g.Printf ("package " ++ pkgName ++ "\n\n")
  let g := g.Printf "import (\n"
  let g := g.Printf "\"golang.org/x/text/encoding/unicode\"\n"
  let g := genPackageImports g order
  let g := g.Printf ")\n\n"
  let g := g.Printf
    "var utf16Encoder = unicode.UTF16(unicode.LittleEndian, unicode.IgnoreBOM).NewEncoder()\n"
  let g := g.Printf "\n"
  ⟨g.packages, g.buf ++ buf⟩

/-! ## Interfaces used as concrete inputs -/

/-- The state of a generator that has emitted nothing yet. -/
def emptyGenerator : Generator := ⟨[], ""⟩

/-- The interface `IFoo` (no parent) with the single method
`Bar(flag bool, count intPtr*)`. -/
def scenarioIFoo : InterfaceNode :=
  ⟨"IFoo", "", [],
    [⟨"Bar", none, [⟨[], "bool", 0, "flag", false⟩, ⟨[], "intPtr", 1, "count", false⟩]⟩]⟩

/-- The text that `genInterface` emits for `scenarioIFoo`. -/
def scenarioIFooText : String :=
    "/////////////////////////////////////////\n" ++
    "// IFoo\n" ++
    "\n" ++
    "type IFooVtbl struct \x7b\n" ++
    "ole.IUnknownVtbl\n" ++
    "Bar uintptr\n" ++
    "\x7d\n" ++
    "\n" ++
    "type IFoo struct \x7b\n" ++
    "ole.IUnknown\n" ++
    "\x7d\n" ++
    "\n" ++
    "func (v *IFoo) VTable() *IFooVtbl \x7b\n" ++
    "return (*IFooVtbl)(unsafe.Pointer(v.RawVTable))\n" ++
    "\x7d\n" ++
    "\n" ++
    "func (v *IFoo) Bar(\n" ++
    "flag bool, // []\n" ++
    "count *intPtr, // []\n" ++
    ") error \x7b\n" ++
    "var flag_bool int\n" ++
    "if flag == true \x7b flag_bool = 1 \x7d\n" ++
    "\n" ++
    "hr, _, _ := syscall.Syscall(\n" ++
    "v.VTable().Bar,\n" ++
    "3,\n" ++
    "uintptr(unsafe.Pointer(v)),\n" ++
    "uintptr(flag_bool),\n" ++
    "uintptr(unsafe.Pointer(count)),\n" ++
    ")\n" ++
    "if hr != 0 \x7b return ole.NewError(hr) \x7d\n" ++
    "return nil\x7d\n"

/-- An interface whose only method takes one `VARIANT` by value. -/
def variantIface : InterfaceNode :=
  ⟨"IVar", "", [], [⟨"Put", none, [⟨[], "VARIANT", 0, "a", false⟩]⟩]⟩

/-- The text that `genInterface` emits for `variantIface`. -/
def variantIfaceText : String :=
    "/////////////////////////////////////////\n" ++
    "// IVar\n" ++
    "\n" ++
    "type IVarVtbl struct \x7b\n" ++
    "ole.IUnknownVtbl\n" ++
    "Put uintptr\n" ++
    "\x7d\n" ++
    "\n" ++
    "type IVar struct \x7b\n" ++
    "ole.IUnknown\n" ++
    "\x7d\n" ++
    "\n" ++
    "func (v *IVar) VTable() *IVarVtbl \x7b\n" ++
    "return (*IVarVtbl)(unsafe.Pointer(v.RawVTable))\n" ++
    "\x7d\n" ++
    "\n" ++
    "func (v *IVar) Put(\n" ++
    "a VARIANT, // []\n" ++
    ") error \x7b\n" ++
    "\n" ++
    "hr, _, _ := syscall.Syscall(\n" ++
    "v.VTable().Put,\n" ++
    "4,\n" ++
    "uintptr(unsafe.Pointer(v)),\n" ++
    "aV0,\n" ++
    "aV1,\n" ++
    "aV2,\n" ++
    ")\n" ++
    "if hr != 0 \x7b return ole.NewError(hr) \x7d\n" ++
    "return nil\x7d\n"

/-- A scalar parameter of type `int` with the given name. -/
def intParam (name : String) : ParamNode :=
  ⟨[], "int", 0, name, false⟩

/-- An interface whose only method takes nine scalar parameters. -/
def nineParamIface : InterfaceNode :=
  ⟨"IBig", "", [],
    [⟨"M", none,
      [intParam "a", intParam "b", intParam "c", intParam "d", intParam "e", intParam "f",
        intParam "g", intParam "h", intParam "i"]⟩]⟩

/-- The text that `genInterface` emits for `nineParamIface`. -/
def nineParamIfaceText : String :=
    "/////////////////////////////////////////\n" ++
    "// IBig\n" ++
    "\n" ++
    "type IBigVtbl struct \x7b\n" ++
    "ole.IUnknownVtbl\n" ++
    "M uintptr\n" ++
    "\x7d\n" ++
    "\n" ++
    "type IBig struct \x7b\n" ++
    "ole.IUnknown\n" ++
    "\x7d\n" ++
    "\n" ++
    "func (v *IBig) VTable() *IBigVtbl \x7b\n" ++
    "return (*IBigVtbl)(unsafe.Pointer(v.RawVTable))\n" ++
    "\x7d\n" ++
    "\n" ++
    "func (v *IBig) M(\n" ++
    "a int, // []\n" ++
    "b int, // []\n" ++
    "c int, // []\n" ++
    "d int, // []\n" ++
    "e int, // []\n" ++
    "f int, // []\n" ++
    "g int, // []\n" ++
    "h int, // []\n" ++
    "i int, // []\n" ++
    ") error \x7b\n" ++
    "\n" ++
    "\n" ++
    "\n" ++
    "\n" ++
    "\n" ++
    "\n" ++
    "\n" ++
    "\n" ++
    "\n" ++
    "hr, _, _ := syscall.Syscall(\n" ++
    "v.VTable().M,\n" ++
    "10,\n" ++
    "uintptr(unsafe.Pointer(v)),\n" ++
    "uintptr(a),\n" ++
    "uintptr(b),\n" ++
    "uintptr(c),\n" ++
    "uintptr(d),\n" ++
    "uintptr(e),\n" ++
    "uintptr(f),\n" ++
    "uintptr(g),\n" ++
    "uintptr(h),\n" ++
    "uintptr(i),\n" ++
    ")\n" ++
    "if hr != 0 \x7b return ole.NewError(hr) \x7d\n" ++
    "return nil\x7d\n"

/-- An interface whose only method takes no parameter. -/
def pingIface : InterfaceNode :=
  ⟨"IPing", "", [], [⟨"Ping", none, []⟩]⟩

/-- The text that `genInterface` emits for `pingIface`. -/
def pingIfaceText : String :=
    "/////////////////////////////////////////\n" ++
    "// IPing\n" ++
    "\n" ++
    "type IPingVtbl struct \x7b\n" ++
    "ole.IUnknownVtbl\n" ++
    "Ping uintptr\n" ++
    "\x7d\n" ++
    "\n" ++
    "type IPing struct \x7b\n" ++
    "ole.IUnknown\n" ++
    "\x7d\n" ++
    "\n" ++
    "func (v *IPing) VTable() *IPingVtbl \x7b\n" ++
    "return (*IPingVtbl)(unsafe.Pointer(v.RawVTable))\n" ++
    "\x7d\n" ++
    "\n" ++
    "func (v *IPing) Ping(\n" ++
    ") error \x7b\n" ++
    "hr, _, _ := syscall.Syscall(\n" ++
    "v.VTable().Ping,\n" ++
    "3,\n" ++
    "uintptr(unsafe.Pointer(v)),\n" ++
    "0,\n" ++
    "0,\n" ++
    ")\n" ++
    "if hr != 0 \x7b return ole.NewError(hr) \x7d\n" ++
    "return nil\x7d\n"

/-- An interface with two methods that derives from `IBase`. -/
def derivedIface : InterfaceNode :=
  ⟨"IDerived", "IBase", [],
    [⟨"Second", none, []⟩, ⟨"Third", none, [⟨[], "LONG", 0, "n", false⟩]⟩]⟩

/-- The text that `genInterface` emits for `derivedIface`. -/
def derivedIfaceText : String :=
    "/////////////////////////////////////////\n" ++
    "// IDerived\n" ++
    "\n" ++
    "type IDerivedVtbl struct \x7b\n" ++
    "IBaseVtbl\n" ++
    "Second uintptr\n" ++
    "Third uintptr\n" ++
    "\x7d\n" ++
    "\n" ++
    "type IDerived struct \x7b\n" ++
    "IBase\n" ++
    "\x7d\n" ++
    "\n" ++
    "func (v *IDerived) VTable() *IDerivedVtbl \x7b\n" ++
    "return (*IDerivedVtbl)(unsafe.Pointer(v.RawVTable))\n" ++
    "\x7d\n" ++
    "\n" ++
    "func (v *IDerived) Second(\n" ++
    ") error \x7b\n" ++
    "hr, _, _ := syscall.Syscall(\n" ++
    "v.VTable().Second,\n" ++
    "3,\n" ++
    "uintptr(unsafe.Pointer(v)),\n" ++
    "0,\n" ++
    "0,\n" ++
    ")\n" ++
    "if hr != 0 \x7b return ole.NewError(hr) \x7d\n" ++
    "return nil\x7d\n" ++
    "func (v *IDerived) Third(\n" ++
    "n int32, // []\n" ++
    ") error \x7b\n" ++
    "\n" ++
    "hr, _, _ := syscall.Syscall(\n" ++
    "v.VTable().Third,\n" ++
    "3,\n" ++
    "uintptr(unsafe.Pointer(v)),\n" ++
    "uintptr(n),\n" ++
    "0,\n" ++
    ")\n" ++
    "if hr != 0 \x7b return ole.NewError(hr) \x7d\n" ++
    "return nil\x7d\n"

/-- An interface whose only method takes three parameters: a pointer, a scalar and a
pointer. -/
def compareIface : InterfaceNode :=
  ⟨"IShellItem", "", [],
    [⟨"Compare", none,
      [⟨[], "IShellItem", 1, "psi", false⟩, ⟨[], "DWORD", 0, "hint", false⟩,
        ⟨[], "int", 1, "piOrder", false⟩]⟩]⟩

/-- The text that `genInterface` emits for `compareIface`. -/
def compareIfaceText : String :=
    "/////////////////////////////////////////\n" ++
    "// IShellItem\n" ++
    "\n" ++
    "type IShellItemVtbl struct \x7b\n" ++
    "ole.IUnknownVtbl\n" ++
    "Compare uintptr\n" ++
    "\x7d\n" ++
    "\n" ++
    "type IShellItem struct \x7b\n" ++
    "ole.IUnknown\n" ++
    "\x7d\n" ++
    "\n" ++
    "func (v *IShellItem) VTable() *IShellItemVtbl \x7b\n" ++
    "return (*IShellItemVtbl)(unsafe.Pointer(v.RawVTable))\n" ++
    "\x7d\n" ++
    "\n" ++
    "func (v *IShellItem) Compare(\n" ++
    "psi *IShellItem, // []\n" ++
    "hint uint32, // []\n" ++
    "piOrder *int, // []\n" ++
    ") error \x7b\n" ++
    "\n" ++
    "\n" ++
    "\n" ++
    "hr, _, _ := syscall.Syscall6(\n" ++
    "v.VTable().Compare,\n" ++
    "6,\n" ++
    "uintptr(unsafe.Pointer(v)),\n" ++
    "uintptr(unsafe.Pointer(psi)),\n" ++
    "uintptr(hint),\n" ++
    "uintptr(unsafe.Pointer(piOrder)),\n" ++
    "0,\n" ++
    "0,\n" ++
    ")\n" ++
    "if hr != 0 \x7b return ole.NewError(hr) \x7d\n" ++
    "return nil\x7d\n"

/-! ## Basic facts about strings and the synonym table -/

theorem str_append_left_cancel {a b c : String} (h : a ++ b = a ++ c) : b = c := by
  have hd := congrArg String.data h
  simp only [String.data_append] at hd
  exact String.ext (List.append_cancel_left hd)

theorem lookup_some_mem (t v : String) : ∀ (l : List (String × String)),
    l.lookup t = some v → (t, v) ∈ l
  | [], h => by simp [List.lookup] at h
  | (k, w) :: l, h => by
    simp only [List.lookup] at h
    split at h
    · rename_i hb
      have hk : t = k := by simpa using hb
      simp only [Option.some.injEq] at h
      subst hk; subst h
      exact List.mem_cons_self _ _
    · exact List.mem_cons_of_mem _ (lookup_some_mem t v l h)

theorem lookup_none_not_mem (t : String) : ∀ (l : List (String × String)),
    l.lookup t = none → ∀ v, (t, v) ∉ l
  | [], _, _ => by simp
  | (k, w) :: l, h, v => by
    simp only [List.lookup] at h
    split at h
    · simp at h
    · rename_i hb
      have hk : ¬ t = k := by simpa using hb
      intro hm
      rcases List.mem_cons.mp hm with he | hm
      · exact hk (congrArg Prod.fst he)
      · exact lookup_none_not_mem t l h v hm

/-- Every entry of the synonym table, spelled out. -/
theorem typeMap_mem {t v : String} (h : (t, v) ∈ typeMap) :
    (t = "LONG" ∧ v = "int32") ∨ (t = "DWORD" ∧ v = "uint32") ∨ (t = "ULONG" ∧ v = "uint32")
    ∨ (t = "BYTE" ∧ v = "byte") ∨ (t = "LPWSTR" ∧ v = "string") ∨ (t = "LPCWSTR" ∧ v = "string")
    ∨ (t = "GUID" ∧ v = "ole.GUID") ∨ (t = "UINT_PTR" ∧ v = "*int32") ∨ (t = "BOOL" ∧ v = "bool")
    ∨ (t = "REFGUID" ∧ v = "*ole.GUID") ∨ (t = "HWND" ∧ v = "wintypes.HWND")
    ∨ (t = "HBITMAP" ∧ v = "wintypes.HBITMAP")
    ∨ (t = "REFPROPERTYKEY" ∧ v = "wintypes.PROPERTYKEY")
    ∨ (t = "PROPVARIANT" ∧ v = "uintptr") := by
  simpa only [typeMap, List.mem_cons, Prod.mk.injEq, List.mem_singleton, List.not_mem_nil,
    or_false] using h

/-- A key of the synonym table is looked up to the value it is listed with. -/
theorem typeMap_lookup_of_mem {t v : String} (h : (t, v) ∈ typeMap) :
    typeMap.lookup t = some v := by
  rcases typeMap_mem h with h | h | h | h | h | h | h | h | h | h | h | h | h | h
  all_goals (obtain ⟨h1, h2⟩ := h; subst h1; subst h2; decide)

theorem mapType_fst (g : Generator) (t : String) : (g.mapType t).1 = resolveType t := by
  simp only [Generator.mapType]
  split_ifs <;> rfl

theorem mapType_snd (g : Generator) (t : String) :
    (g.mapType t).2 =
      if stringsHasPrefix (resolveType t) "wintypes." then g.addPackage wintypesPackage
      else if stringsHasPrefix (resolveType t) "ole." then g.addPackage olePackage
      else g := by
  simp only [Generator.mapType]
  split_ifs <;> simp [*]

theorem resolveType_eq_bool {t : String} (h : resolveType t = "bool") :
    t = "BOOL" ∨ t = "bool" := by
  unfold resolveType at h
  split at h
  · rename_i v hl
    subst h
    rcases typeMap_mem (lookup_some_mem t _ typeMap hl) with
      h | h | h | h | h | h | h | h | h | h | h | h | h | h
    all_goals first
      | exact Or.inl h.1
      | (exfalso; have h2 := h.2; revert h2; decide)
  · exact Or.inr h

theorem resolveType_eq_variant {t : String} (h : resolveType t = "VARIANT") :
    t = "VARIANT" := by
  unfold resolveType at h
  split at h
  · rename_i v hl
    subst h
    rcases typeMap_mem (lookup_some_mem t _ typeMap hl) with
      h | h | h | h | h | h | h | h | h | h | h | h | h | h
    all_goals (exfalso; have h2 := h.2; revert h2; decide)
  · exact h

/-- The source of `genSyscallParams`, with the mapped type and the indirection count
named. -/
theorem genSyscallParams_eq (g : Generator) (p : ParamNode) :
    g.genSyscallParams p =
      if resolveType p.Typ = "VARIANT" ∧ effectiveIndirection p = 0 then
        some (([p.Name ++ "V0", p.Name ++ "V1", p.Name ++ "V2"], ""), (g.mapType p.Typ).2)
      else if resolveType p.Typ = "bool" ∧ effectiveIndirection p = 0 then
        some ((["uintptr(" ++ p.Name ++ "_bool)"],
          "var " ++ p.Name ++ "_bool int\n" ++
            "if " ++ p.Name ++ " == true \x7b " ++ p.Name ++ "_bool = 1 \x7d"),
          (g.mapType p.Typ).2)
      else if effectiveIndirection p > 0 then
        some ((["uintptr(unsafe.Pointer(" ++ p.Name ++ "))"], ""), (g.mapType p.Typ).2)
      else if resolveType p.Typ = "string" then
        if p.Typ = "LPWSTR" ∨ p.Typ = "LPCWSTR" then
          some ((["uintptr(unsafe.Pointer(&" ++ p.Name ++ "_rawval[0]))"],
            p.Name ++ "_rawval, " ++ p.Name ++ "_err := utf16Encoder.Bytes([]byte("
              ++ p.Name ++ "))\n" ++
            "if " ++ p.Name ++ "_err != nil \x7b log.Fatalln(\"unable to utf-16 encode:\", "
              ++ p.Name ++ "_err) \x7d\n"), (g.mapType p.Typ).2.addPackage logPackage)
        else
          none
      else
        some ((["uintptr(" ++ p.Name ++ ")"], ""), (g.mapType p.Typ).2) := by
  simp only [Generator.genSyscallParams, mapType_fst, effectiveIndirection]

theorem concatStr_append (xs ys : List String) :
    concatStr (xs ++ ys) = concatStr xs ++ concatStr ys := by
  induction xs with
  | nil => simp [concatStr]
  | cons x xs ih => simp [concatStr, ih, String.append_assoc]

theorem Printf_buf (g : Generator) (s : String) : (g.Printf s).buf = g.buf ++ s := rfl

theorem Printf_packages (g : Generator) (s : String) : (g.Printf s).packages = g.packages :=
  rfl

theorem addPackage_buf (g : Generator) (pkg : String) : (g.addPackage pkg).buf = g.buf := by
  unfold Generator.addPackage
  split_ifs <;> rfl

theorem genEnumValues_buf (enumName : String) :
    ∀ (vs : List EnumValueNode) (g : Generator) (i : Nat),
      (genEnumValues g enumName i vs).buf = g.buf ++ concatStr (enumLinesFrom enumName i vs)
  | [], g, i => by simp [genEnumValues, enumLinesFrom, concatStr]
  | v :: vs, g, i => by
    simp [genEnumValues, enumLinesFrom, concatStr, genEnumValues_buf enumName vs, Printf_buf,
      String.append_assoc]

theorem enumLinesFrom_split (enumName : String) :
    ∀ (vs : List EnumValueNode) (i k : Nat) (v : EnumValueNode), vs[k]? = some v →
      enumLinesFrom enumName i vs =
        enumLinesFrom enumName i (vs.take k)
          ++ genEnumLine enumName (i + k) v
            :: enumLinesFrom enumName (i + k + 1) (vs.drop (k + 1))
  | [], i, k, v, h => by simp at h
  | w :: vs, i, 0, v, h => by
    simp only [List.getElem?_cons_zero, Option.some.injEq] at h
    subst h
    simp [enumLinesFrom]
  | w :: vs, i, k + 1, v, h => by
    simp only [List.getElem?_cons_succ] at h
    have ih := enumLinesFrom_split enumName vs (i + 1) k v h
    simp only [enumLinesFrom, List.take_succ_cons, List.drop_succ_cons, List.cons_append]
    rw [ih]
    have e1 : i + 1 + k = i + (k + 1) := by omega
    rw [e1]

/-! ## The generator only appends to its buffer -/

theorem mapType_buf (g : Generator) (t : String) : (g.mapType t).2.buf = g.buf := by
  rw [mapType_snd]
  split_ifs <;> simp [addPackage_buf]

theorem genParam_buf (g : Generator) (n : ParamNode) : (g.genParam n).2.buf = g.buf :=
  mapType_buf g n.Typ

theorem genParam_fst (g h : Generator) (n : ParamNode) : (g.genParam n).1 = (h.genParam n).1 := by
  simp only [Generator.genParam, mapType_fst]

theorem genSyscallParams_buf {g : Generator} {p : ParamNode}
    {r : (List String × String) × Generator} (h : g.genSyscallParams p = some r) :
    r.2.buf = g.buf := by
  rw [genSyscallParams_eq] at h
  split_ifs at h <;> simp only [Option.some.injEq] at h <;> subst h <;>
    simp [mapType_buf, addPackage_buf]

/-- The slots and the conversion code of a parameter do not depend on the state. -/
theorem genSyscallParams_fst (g h : Generator) (p : ParamNode) :
    (g.genSyscallParams p).map (fun r => r.1) = (h.genSyscallParams p).map (fun r => r.1) := by
  rw [genSyscallParams_eq, genSyscallParams_eq]
  split_ifs <;> rfl

theorem genVtblFields_buf : ∀ (ms : List MethodNode) (g : Generator),
    (genVtblFields g ms).buf = g.buf ++ concatStr (ms.map (fun m => m.Name ++ " uintptr\n"))
  | [], g => by simp [genVtblFields, concatStr]
  | m :: ms, g => by
    simp [genVtblFields, concatStr, genVtblFields_buf ms, Printf_buf, String.append_assoc]

theorem genCallArgs_buf : ∀ (ps : List String) (g : Generator),
    (genCallArgs g ps).buf = g.buf ++ concatStr (ps.map (fun s => s ++ ",\n"))
  | [], g => by simp [genCallArgs, concatStr]
  | q :: ps, g => by
    simp [genCallArgs, concatStr, genCallArgs_buf ps, Printf_buf, String.append_assoc]

theorem genStubParams_buf : ∀ (ps : List ParamNode) (g : Generator),
    ∃ s, (genStubParams g ps).buf = g.buf ++ s
  | [], g => ⟨"", by simp [genStubParams]⟩
  | q :: ps, g => by
    obtain ⟨s, hs⟩ := genStubParams_buf ps
      ((g.genParam q).2.Printf ((g.genParam q).1.1 ++ ", // " ++ (g.genParam q).1.2 ++ "\n"))
    refine ⟨((g.genParam q).1.1 ++ ", // " ++ (g.genParam q).1.2 ++ "\n") ++ s, ?_⟩
    simp only [genStubParams]
    rw [hs, Printf_buf, genParam_buf, String.append_assoc]

theorem genStubSyscallParams_buf : ∀ (ps : List ParamNode) (g : Generator) (acc : List String)
    (r : List String × Generator), genStubSyscallParams g acc ps = some r →
    ∃ s, r.2.buf = g.buf ++ s
  | [], g, acc, r, h => by
    simp only [genStubSyscallParams, Option.some.injEq] at h
    subst h
    exact ⟨"", by simp⟩
  | q :: ps, g, acc, r, h => by
    simp only [genStubSyscallParams] at h
    split at h
    · simp at h
    · rename_i r1 h1
      obtain ⟨s, hs⟩ := genStubSyscallParams_buf ps _ _ r h
      refine ⟨(r1.1.2 ++ "\n") ++ s, ?_⟩
      rw [hs, Printf_buf, genSyscallParams_buf h1, String.append_assoc]

/-- The slot list accumulated by the second loop of a stub is the given accumulator
followed by slots that depend neither on the accumulator nor on the state. -/
theorem genStubSyscallParams_slots : ∀ (ps : List ParamNode) (g : Generator)
    (acc : List String) (r : List String × Generator),
    genStubSyscallParams g acc ps = some r →
    ∃ tail, r.1 = acc ++ tail ∧
      ∀ (h : Generator) (acc2 : List String),
        (genStubSyscallParams h acc2 ps).map (fun r => r.1) = some (acc2 ++ tail)
  | [], g, acc, r, h => by
    simp only [genStubSyscallParams, Option.some.injEq] at h
    subst h
    exact ⟨[], by simp, fun h acc2 => by simp [genStubSyscallParams]⟩
  | q :: ps, g, acc, r, h => by
    simp only [genStubSyscallParams] at h
    split at h
    · simp at h
    · rename_i r1 h1
      obtain ⟨tail, ht, hall⟩ := genStubSyscallParams_slots ps _ _ r h
      refine ⟨r1.1.1 ++ tail, by rw [ht, List.append_assoc], ?_⟩
      intro h2 acc2
      have hf := genSyscallParams_fst h2 g q
      rw [h1] at hf
      cases h3 : h2.genSyscallParams q with
      | none => rw [h3] at hf; simp at hf
      | some r3 =>
        rw [h3] at hf
        simp only [Option.map_some', Option.some.injEq] at hf
        simp only [genStubSyscallParams, h3]
        rw [hall, hf, List.append_assoc]

theorem methodSlots_of_stub {g : Generator} {m : MethodNode} {r : List String × Generator}
    (h : genStubSyscallParams g [] m.Params = some r) : methodSlots m = some r.1 := by
  obtain ⟨tail, ht, hall⟩ := genStubSyscallParams_slots m.Params g [] r h
  rw [methodSlots, hall, ht]

/-! ## The text of a call stub and of an interface -/

/-- What a call stub appends once the slots of its parameters are known. -/
theorem genMethodStub_some {g g' : Generator} {ifaceName : String} {m : MethodNode}
    (h : genMethodStub g ifaceName m = some g') :
    ∃ r, genStubSyscallParams
          ((genStubParams (g.Printf ("func (v *" ++ ifaceName ++ ") " ++ m.Name ++ "(\n"))
            m.Params).Printf ") error \x7b\n") [] m.Params = some r
      ∧ g'.buf = r.2.buf
          ++ ("hr, _, _ := syscall." ++ (selectSyscall (m.Params.length + 1)).1 ++ "(\n")
          ++ ("v.VTable()." ++ m.Name ++ ",\n")
          ++ (fmtInt ((padSyscallParams r.1 (selectSyscall (m.Params.length + 1)).2).length + 1)
                ++ ",\n")
          ++ "uintptr(unsafe.Pointer(v)),\n"
          ++ concatStr ((padSyscallParams r.1 (selectSyscall (m.Params.length + 1)).2).map
                (fun s => s ++ ",\n"))
          ++ ")\n"
          ++ "if hr != 0 \x7b return ole.NewError(hr) \x7d\n"
          ++ "return nil"
          ++ "\x7d\n" := by
  simp only [genMethodStub] at h
  split at h
  · simp at h
  · rename_i r hr
    simp only [Option.some.injEq] at h
    subst h
    exact ⟨r, hr, by simp only [addPackage_buf, Printf_buf, genCallArgs_buf]⟩

theorem genMethodStub_buf {g g' : Generator} {ifaceName : String} {m : MethodNode}
    (h : genMethodStub g ifaceName m = some g') : ∃ s, g'.buf = g.buf ++ s := by
  obtain ⟨r, hr, hb⟩ := genMethodStub_some h
  obtain ⟨s1, hs1⟩ := genStubSyscallParams_buf _ _ _ _ hr
  obtain ⟨s2, hs2⟩ := genStubParams_buf m.Params
    (g.Printf ("func (v *" ++ ifaceName ++ ") " ++ m.Name ++ "(\n"))
  rw [Printf_buf, hs2, Printf_buf] at hs1
  rw [hb, hs1]
  simp only [String.append_assoc]
  exact ⟨_, rfl⟩

theorem genMethodStubs_buf (ifaceName : String) : ∀ (ms : List MethodNode) (g g' : Generator),
    genMethodStubs g ifaceName ms = some g' → ∃ s, g'.buf = g.buf ++ s
  | [], g, g', h => by
    simp only [genMethodStubs, Option.some.injEq] at h
    subst h
    exact ⟨"", by simp⟩
  | m :: ms, g, g', h => by
    simp only [genMethodStubs] at h
    split at h
    · simp at h
    · rename_i g1 h1
      obtain ⟨s1, hs1⟩ := genMethodStub_buf h1
      obtain ⟨s2, hs2⟩ := genMethodStubs_buf ifaceName ms g1 g' h
      exact ⟨s1 ++ s2, by rw [hs2, hs1, String.append_assoc]⟩

/-- Every method of the list gets its stub, and the text of that stub stays in the
buffer: what follows it is appended after it. -/
theorem genMethodStubs_mem (ifaceName : String) : ∀ (ms : List MethodNode) (g g' : Generator),
    genMethodStubs g ifaceName ms = some g' → ∀ m ∈ ms,
      ∃ gm gm' post, genMethodStub gm ifaceName m = some gm' ∧ g'.buf = gm'.buf ++ post
  | [], g, g', h, m, hm => by simp at hm
  | m0 :: ms, g, g', h, m, hm => by
    simp only [genMethodStubs] at h
    split at h
    · simp at h
    · rename_i g1 h1
      rcases List.mem_cons.mp hm with he | hm2
      · subst he
        obtain ⟨s2, hs2⟩ := genMethodStubs_buf ifaceName ms g1 g' h
        exact ⟨g, g1, s2, h1, hs2⟩
      · exact genMethodStubs_mem ifaceName ms g1 g' h m hm2

/-- The text that `genInterface` has appended when it starts to emit the call stubs. -/
theorem genInterface_stubs {g g' : Generator} {n : InterfaceNode} (hne : n.Methods ≠ [])
    (h : g.genInterface n = some g') :
    ∃ gs, genMethodStubs gs n.Name n.Methods = some g'
      ∧ gs.buf = g.buf
          ++ "/////////////////////////////////////////\n"
          ++ ("// " ++ n.Name ++ "\n")
          ++ ("\ntype " ++ n.Name ++ "Vtbl struct \x7b\n")
          ++ (qualifiedParentName n ++ "Vtbl\n")
          ++ concatStr (n.Methods.map (fun m => m.Name ++ " uintptr\n"))
          ++ "\x7d\n\n"
          ++ ("type " ++ n.Name ++ " struct \x7b\n")
          ++ (qualifiedParentName n ++ "\n")
          ++ "\x7d\n\n"
          ++ ("func (v *" ++ n.Name ++ ") VTable() *" ++ n.Name ++ "Vtbl \x7b\n")
          ++ ("return (*" ++ n.Name ++ "Vtbl)(unsafe.Pointer(v.RawVTable))\n")
          ++ "\x7d\n\n" := by
  have hl : ¬ (n.Methods.length = 0) := fun h0 => hne (List.length_eq_zero.mp h0)
  simp only [Generator.genInterface, if_neg hl] at h
  refine ⟨_, h, ?_⟩
  simp only [addPackage_buf, Printf_buf, genVtblFields_buf]
  split_ifs <;> simp only [addPackage_buf, Printf_buf]

/-! ## When the generator returns -/

theorem genStubSyscallParams_returns {m : MethodNode} (h : methodSlots m ≠ none)
    (g : Generator) : ∃ r, genStubSyscallParams g [] m.Params = some r := by
  unfold methodSlots at h
  cases h0 : genStubSyscallParams ⟨[], ""⟩ [] m.Params with
  | none => rw [h0] at h; simp at h
  | some r0 =>
    obtain ⟨tail, _, hall⟩ := genStubSyscallParams_slots m.Params _ [] r0 h0
    have hg := hall g []
    cases h1 : genStubSyscallParams g [] m.Params with
    | none => rw [h1] at hg; simp at hg
    | some r => exact ⟨r, rfl⟩

theorem genMethodStub_returns {m : MethodNode} (h : methodSlots m ≠ none) (g : Generator)
    (ifaceName : String) : ∃ g', genMethodStub g ifaceName m = some g' := by
  obtain ⟨r, hr⟩ := genStubSyscallParams_returns h
    ((genStubParams (g.Printf ("func (v *" ++ ifaceName ++ ") " ++ m.Name ++ "(\n"))
      m.Params).Printf ") error \x7b\n")
  simp only [genMethodStub, hr]
  exact ⟨_, rfl⟩

theorem genMethodStubs_returns (ifaceName : String) : ∀ (ms : List MethodNode),
    (∀ m ∈ ms, methodSlots m ≠ none) → ∀ (g : Generator),
      ∃ g', genMethodStubs g ifaceName ms = some g'
  | [], _, g => ⟨g, rfl⟩
  | m :: ms, h, g => by
    obtain ⟨g1, h1⟩ := genMethodStub_returns (h m (List.mem_cons_self _ _)) g ifaceName
    obtain ⟨g2, h2⟩ := genMethodStubs_returns ifaceName ms
      (fun x hx => h x (List.mem_cons_of_mem _ hx)) g1
    exact ⟨g2, by simp only [genMethodStubs, h1, h2]⟩

/-- An interface none of whose parameters makes `genSyscallParams` abort is generated. -/
theorem genInterface_returns (g : Generator) (n : InterfaceNode)
    (h : ∀ m ∈ n.Methods, methodSlots m ≠ none) : ∃ g', g.genInterface n = some g' := by
  by_cases h0 : n.Methods.length = 0
  · exact ⟨g, by simp only [Generator.genInterface, if_pos h0]⟩
  · simp only [Generator.genInterface, if_neg h0]
    exact genMethodStubs_returns n.Name n.Methods h _

theorem qualifiedParentName_eq (n : InterfaceNode) :
    qualifiedParentName n =
      if n.ParentName = "" ∨ n.ParentName = "IUnknown" then "ole.IUnknown"
      else n.ParentName := by
  unfold qualifiedParentName parentName olePackageStruct
  by_cases h1 : n.ParentName = ""
  · simp [h1]
  · by_cases h2 : n.ParentName = "IUnknown"
    · simp [h2]
    · simp [h1, h2]

/-! ## Theorems about the claims -/

set_option maxRecDepth 1000000

/-- C5. An interface with an empty method list leaves the generator state unchanged:
`genInterface` returns the very state it was given, so no text is appended to the
buffer and no package is added to the dependency set, whatever the name, the parent and
the attributes of the interface are. -/
theorem C5_zero_methods_skipped (g : Generator) (n : InterfaceNode) (h : n.Methods = []) :
    g.genInterface n = some g := by
  simp [Generator.genInterface, h]

theorem C5_zero_methods_skipped_witness :
    (⟨["\"unsafe\""], "package x\n"⟩ : Generator).genInterface
        ⟨"IMarker", "IBase", [⟨"uuid", TokenType.other 7⟩], []⟩
      = some ⟨["\"unsafe\""], "package x\n"⟩ :=
  C5_zero_methods_skipped _ _ rfl

/-- C7. For a parameter whose mapped type is `bool` and whose effective indirection is
zero, `genSyscallParams` returns (without aborting and without touching the generator
state) exactly one slot, `uintptr(<name>_bool)`, together with the conversion code that
declares the integer local `<name>_bool` and sets it to 1 when the parameter is true.
Such a parameter is declared as `BOOL` or `bool`, and the slot is not the raw value
`uintptr(<name>)` that an unconverted scalar would be passed as. -/
theorem C7_bool_marshaling (g : Generator) (p : ParamNode)
    (hty : resolveType p.Typ = "bool") (hind : effectiveIndirection p = 0) :
    g.genSyscallParams p =
        some ((["uintptr(" ++ p.Name ++ "_bool)"],
          "var " ++ p.Name ++ "_bool int\n" ++
            "if " ++ p.Name ++ " == true \x7b " ++ p.Name ++ "_bool = 1 \x7d"), g)
      ∧ (p.Typ = "BOOL" ∨ p.Typ = "bool")
      ∧ "uintptr(" ++ p.Name ++ "_bool)" ≠ "uintptr(" ++ p.Name ++ ")" := by
  refine ⟨?_, resolveType_eq_bool hty, ?_⟩
  · have hs : (g.mapType p.Typ).2 = g := by
      rw [mapType_snd, hty]
      have h1 : stringsHasPrefix "bool" "wintypes." = false := by decide
      have h2 : stringsHasPrefix "bool" "ole." = false := by decide
      simp [h1, h2]
    have hv : ¬ ("bool" = "VARIANT") := by decide
    rw [genSyscallParams_eq, hs]
    simp [hty, hind, hv]
  · intro h
    rw [String.append_assoc, String.append_assoc] at h
    have h2 := str_append_left_cancel (str_append_left_cancel h)
    revert h2
    decide

theorem C7_bool_marshaling_witness :
    (⟨[], ""⟩ : Generator).genSyscallParams ⟨[], "BOOL", 0, "flag", false⟩ =
        some ((["uintptr(" ++ "flag" ++ "_bool)"],
          "var " ++ "flag" ++ "_bool int\n" ++
            "if " ++ "flag" ++ " == true \x7b " ++ "flag" ++ "_bool = 1 \x7d"), ⟨[], ""⟩)
      ∧ ("BOOL" = "BOOL" ∨ "BOOL" = "bool")
      ∧ "uintptr(" ++ "flag" ++ "_bool)" ≠ "uintptr(" ++ "flag" ++ ")" :=
  C7_bool_marshaling ⟨[], ""⟩ ⟨[], "BOOL", 0, "flag", false⟩ (by decide) (by decide)

/-- C8. For a parameter whose mapped type is `VARIANT` and whose effective indirection
is zero, `genSyscallParams` returns exactly the three slots `<name>V0`, `<name>V1`,
`<name>V2`, in this order, with empty conversion code; on every other parameter on
which it returns at all, it returns exactly one slot. -/
theorem C8_variant_marshaling (g : Generator) (p : ParamNode) :
    (resolveType p.Typ = "VARIANT" → effectiveIndirection p = 0 →
        g.genSyscallParams p =
          some (([p.Name ++ "V0", p.Name ++ "V1", p.Name ++ "V2"], ""), g))
      ∧ (∀ r, g.genSyscallParams p = some r →
          ¬ (resolveType p.Typ = "VARIANT" ∧ effectiveIndirection p = 0) →
          r.1.1.length = 1) := by
  constructor
  · intro hty hind
    have hs : (g.mapType p.Typ).2 = g := by
      rw [mapType_snd, hty]
      have h1 : stringsHasPrefix "VARIANT" "wintypes." = false := by decide
      have h2 : stringsHasPrefix "VARIANT" "ole." = false := by decide
      simp [h1, h2]
    rw [genSyscallParams_eq, hs]
    simp [hty, hind]
  · intro r hr hnot
    rw [genSyscallParams_eq, if_neg hnot] at hr
    split_ifs at hr <;> simp only [Option.some.injEq] at hr <;> subst hr <;> rfl

theorem C8_variant_marshaling_witness :
    ((⟨[], ""⟩ : Generator).genSyscallParams ⟨[], "VARIANT", 0, "val", false⟩ =
        some ((["val" ++ "V0", "val" ++ "V1", "val" ++ "V2"], ""), ⟨[], ""⟩))
      ∧ ((((["uintptr(unsafe.Pointer(val))"], ""), (⟨[], ""⟩ : Generator)) :
            (List String × String) × Generator).1.1.length = 1) :=
  ⟨(C8_variant_marshaling ⟨[], ""⟩ ⟨[], "VARIANT", 0, "val", false⟩).1 (by decide) (by decide),
   (C8_variant_marshaling ⟨[], ""⟩ ⟨[], "VARIANT", 1, "val", false⟩).2
     ((["uintptr(unsafe.Pointer(val))"], ""), ⟨[], ""⟩) (by decide) (by decide)⟩

/-- C10. `mapType` is total with pass-through: it is a function that returns a name on
every input; for a key of the synonym table `typeMap` it returns the value listed for
that key, and for every name that is not a key it returns the name itself. -/
theorem C10_mapType_total_passthrough (g : Generator) (t : String) :
    (∀ v, (t, v) ∈ typeMap → (g.mapType t).1 = v)
      ∧ ((∀ v, (t, v) ∉ typeMap) → (g.mapType t).1 = t) := by
  constructor
  · intro v hm
    rw [mapType_fst, resolveType, typeMap_lookup_of_mem hm]
  · intro hn
    rw [mapType_fst, resolveType]
    cases hl : typeMap.lookup t with
    | none => rfl
    | some v => exact absurd (lookup_some_mem t v typeMap hl) (hn v)

theorem C10_mapType_total_passthrough_witness :
    ((⟨[], ""⟩ : Generator).mapType "REFGUID").1 = "*ole.GUID"
      ∧ ((⟨[], ""⟩ : Generator).mapType "IShellItem").1 = "IShellItem" :=
  ⟨(C10_mapType_total_passthrough ⟨[], ""⟩ "REFGUID").1 "*ole.GUID" (by decide),
   (C10_mapType_total_passthrough ⟨[], ""⟩ "IShellItem").2
     (fun v => lookup_none_not_mem "IShellItem" typeMap (by decide) v)⟩

/-- C6. For the value `v` at index `i` of an enum, with literal `s`, `genEnum` prints,
between the lines of the values before it and the lines of the values after it, one
line.  The value is emitted with the implicit auto-incrementing start value (the line
`<Name> <EnumName> = iota`, the `iota` being assigned by the generator and not the
literal of the value) if and only if `i = 0` and `s` is empty or `0`; every other value
with an empty literal is printed as the bare name alone, and every other value with a
non-empty literal as `<Name> <EnumName> = <s>`. -/
theorem C6_enum_start_value (g : Generator) (n : EnumNode) (i : Nat) (v : EnumValueNode)
    (hv : n.Values[i]? = some v) :
    (g.genEnum n).buf =
        g.buf ++ "type " ++ n.Name ++ " int\n" ++ "const (\n"
          ++ concatStr (enumLinesFrom n.Name 0 (n.Values.take i))
          ++ genEnumLine n.Name i v
          ++ concatStr (enumLinesFrom n.Name (i + 1) (n.Values.drop (i + 1)))
          ++ ")\n"
      ∧ ((genEnumLine n.Name i v = v.Name ++ " " ++ n.Name ++ " = iota\n" ∧ v.Val ≠ "iota")
          ↔ (i = 0 ∧ (v.Val = "" ∨ v.Val = "0")))
      ∧ (i = 0 ∧ (v.Val = "" ∨ v.Val = "0") →
          genEnumLine n.Name i v = v.Name ++ " " ++ n.Name ++ " = iota\n")
      ∧ (¬ (i = 0 ∧ (v.Val = "" ∨ v.Val = "0")) → v.Val = "" →
          genEnumLine n.Name i v = v.Name ++ "\n")
      ∧ (¬ (i = 0 ∧ (v.Val = "" ∨ v.Val = "0")) → v.Val ≠ "" →
          genEnumLine n.Name i v = v.Name ++ " " ++ n.Name ++ " = " ++ v.Val ++ "\n") := by
  have hline : ∀ (e : String),
      genEnumLine e i v =
        if i = 0 ∧ (v.Val = "" ∨ v.Val = "0") then v.Name ++ " " ++ e ++ " = " ++ "iota" ++ "\n"
        else if v.Val = "" then v.Name ++ "\n"
        else v.Name ++ " " ++ e ++ " = " ++ v.Val ++ "\n" := by
    intro e
    have hne : ¬ ("iota" = "") := by decide
    by_cases hc : (v.Val = "" ∨ v.Val = "0") ∧ i = 0
    · simp only [genEnumLine, if_pos hc, if_neg hne, if_pos (And.intro hc.2 hc.1)]
    · have hc2 : ¬ (i = 0 ∧ (v.Val = "" ∨ v.Val = "0")) := fun h => hc ⟨h.2, h.1⟩
      simp only [genEnumLine, if_neg hc, if_neg hc2]
  have hiota : ∀ (a : String), a ++ " = " ++ "iota" ++ "\n" = a ++ " = iota\n" := by
    intro a
    have e : " = " ++ ("iota" ++ "\n") = " = iota\n" := by decide
    rw [String.append_assoc, String.append_assoc, e]
  have hpassed : genEnumLine n.Name i v = v.Name ++ " " ++ n.Name ++ " = iota\n"
      ↔ ((i = 0 ∧ (v.Val = "" ∨ v.Val = "0")) ∨ v.Val = "iota") := by
    rw [hline]
    by_cases hc : i = 0 ∧ (v.Val = "" ∨ v.Val = "0")
    · rw [if_pos hc, hiota]
      exact ⟨fun _ => Or.inl hc, fun _ => rfl⟩
    · rw [if_neg hc]
      by_cases he : v.Val = ""
      · rw [if_pos he]
        constructor
        · intro h
          rw [String.append_assoc, String.append_assoc] at h
          have h2 := congrArg String.data (str_append_left_cancel h)
          simp at h2
        · intro h
          rcases h with h | h
          · exact absurd h hc
          · rw [he] at h
            exact absurd h (by decide)
      · rw [if_neg he]
        constructor
        · intro h
          rw [← hiota] at h
          have h2 := congrArg String.data h
          simp only [String.data_append] at h2
          exact Or.inr (String.ext (List.append_cancel_left (List.append_cancel_right h2)))
        · intro h
          rcases h with h | h
          · exact absurd h hc
          · rw [h, hiota]
  refine ⟨?_, ?_, ?_, ?_, ?_⟩
  · have hs := enumLinesFrom_split n.Name n.Values 0 i v hv
    simp only [Nat.zero_add] at hs
    simp only [Generator.genEnum, Printf_buf, genEnumValues_buf]
    rw [hs, concatStr_append]
    simp only [concatStr, String.append_assoc]
  · constructor
    · rintro ⟨hl, hne⟩
      rcases hpassed.mp hl with hc | hi
      · exact hc
      · exact absurd hi hne
    · intro hc
      refine ⟨hpassed.mpr (Or.inl hc), ?_⟩
      rcases hc.2 with he | he
      · rw [he]
        decide
      · rw [he]
        decide
  · intro hc
    exact hpassed.mpr (Or.inl hc)
  · intro hc he
    rw [hline, if_neg hc, if_pos he]
  · intro hc he
    rw [hline, if_neg hc, if_neg he]

/-- C1 (the code evaluated at the failing input). The method `Put(a VARIANT)` has the
three flattened slots `aV0`, `aV1`, `aV2`, so its total is 4 and the smallest tier that
holds it is 6; `genInterface` chooses the tier from the number of parameters plus one,
which is 2, and emits a call of `syscall.Syscall` (tier 3) that is given four slots. -/
theorem C1_variant_tier_evaluated :
    methodSlots ⟨"Put", none, [⟨[], "VARIANT", 0, "a", false⟩]⟩ = some ["aV0", "aV1", "aV2"]
      ∧ specTier (3 + 1) = some 6
      ∧ selectSyscall (1 + 1) = ("Syscall", 3)
      ∧ emptyGenerator.genInterface variantIface =
          some ⟨[olePackage, unsafePackage, syscallPackage], variantIfaceText⟩
      ∧ stringsContains variantIfaceText
          ("hr, _, _ := syscall.Syscall(\n" ++ "v.VTable().Put,\n" ++ "4,\n") = true := by
  decide

/-- C2 (the code evaluated at the failing input). The method `M` with nine scalar
parameters has nine flattened slots, so its total is 10 and no tier holds it;
`genInterface` does not abort: it returns and emits a call of `syscall.Syscall` that
is given ten slots. -/
theorem C2_ten_slots_evaluated :
    (methodSlots ⟨"M", none,
        [intParam "a", intParam "b", intParam "c", intParam "d", intParam "e", intParam "f",
          intParam "g", intParam "h", intParam "i"]⟩).map List.length = some 9
      ∧ specTier (9 + 1) = none
      ∧ emptyGenerator.genInterface nineParamIface =
          some ⟨[olePackage, unsafePackage, syscallPackage], nineParamIfaceText⟩
      ∧ stringsContains nineParamIfaceText
          ("hr, _, _ := syscall.Syscall(\n" ++ "v.VTable().M,\n" ++ "10,\n") = true := by
  decide

/-- C3 (as the claim states it, refuted). The method `Ping()` has no flattened slot, so
one plus the number of its slots is 1; the integer that `genInterface` prints after
the vtable slot address is 3: the two `0` entries of the padding are counted. -/
theorem C3_counterexample :
    methodSlots ⟨"Ping", none, []⟩ = some []
      ∧ emptyGenerator.genInterface pingIface =
          some ⟨[olePackage, unsafePackage, syscallPackage], pingIfaceText⟩
      ∧ stringsContains pingIfaceText ("v.VTable().Ping,\n" ++ "3,\n") = true
      ∧ stringsContains pingIfaceText ("v.VTable().Ping,\n" ++ "1,\n") = false := by
  decide

/-- C3 (amended). For every method of an interface that `genInterface` emits, the stub
of the method contains the call whose second argument, printed after the vtable slot
address, is one plus the number of flattened parameter slots plus the number of `0`
entries that pad the slots to the selected tier (`numSyscallRequired - 1 - slots`,
none when the slots already fill the tier). -/
theorem C3_emitted_count (g g' : Generator) (n : InterfaceNode) (m : MethodNode)
    (hm : m ∈ n.Methods) (h : g.genInterface n = some g') :
    ∃ slots before after, methodSlots m = some slots
      ∧ g'.buf = before
          ++ ("hr, _, _ := syscall." ++ (selectSyscall (m.Params.length + 1)).1 ++ "(\n")
          ++ ("v.VTable()." ++ m.Name ++ ",\n")
          ++ (fmtInt (1 + slots.length
                + ((selectSyscall (m.Params.length + 1)).2 - 1 - slots.length)) ++ ",\n")
          ++ "uintptr(unsafe.Pointer(v)),\n"
          ++ after := by
  have hne : n.Methods ≠ [] := List.ne_nil_of_mem hm
  obtain ⟨gs, hgs, _⟩ := genInterface_stubs hne h
  obtain ⟨gm, gm', post, hstub, hpost⟩ := genMethodStubs_mem n.Name n.Methods gs g' hgs m hm
  obtain ⟨r, hr, hb⟩ := genMethodStub_some hstub
  refine ⟨r.1, r.2.buf, ?_, methodSlots_of_stub hr, ?_⟩
  · exact concatStr ((padSyscallParams r.1 (selectSyscall (m.Params.length + 1)).2).map
        (fun s => s ++ ",\n"))
      ++ ")\n" ++ "if hr != 0 \x7b return ole.NewError(hr) \x7d\n" ++ "return nil" ++ "\x7d\n"
      ++ post
  · have hlen : (padSyscallParams r.1 (selectSyscall (m.Params.length + 1)).2).length + 1
        = 1 + r.1.length + ((selectSyscall (m.Params.length + 1)).2 - 1 - r.1.length) := by
      simp only [padSyscallParams, List.length_append, List.length_replicate]
      omega
    rw [hpost, hb, hlen]
    simp only [String.append_assoc]

theorem C3_emitted_count_witness :
    ∃ slots before after, methodSlots ⟨"Ping", none, []⟩ = some slots
      ∧ pingIfaceText = before
          ++ ("hr, _, _ := syscall." ++ (selectSyscall (0 + 1)).1 ++ "(\n")
          ++ ("v.VTable()." ++ "Ping" ++ ",\n")
          ++ (fmtInt (1 + slots.length + ((selectSyscall (0 + 1)).2 - 1 - slots.length))
                ++ ",\n")
          ++ "uintptr(unsafe.Pointer(v)),\n"
          ++ after :=
  C3_emitted_count emptyGenerator ⟨[olePackage, unsafePackage, syscallPackage], pingIfaceText⟩
    pingIface ⟨"Ping", none, []⟩ (by decide) (by decide)

/-- C4 (as the claim states it, refuted). For `IFoo` with the single method
`Bar(flag bool, count intPtr*)` the emitted text contains neither a call of
`syscall.Syscall6` nor the total 4: the two parameters have one slot each, the total
with the receiver is 3. -/
theorem C4_counterexample :
    emptyGenerator.genInterface scenarioIFoo =
        some ⟨[olePackage, unsafePackage, syscallPackage], scenarioIFooText⟩
      ∧ methodSlots ⟨"Bar", none,
          [⟨[], "bool", 0, "flag", false⟩, ⟨[], "intPtr", 1, "count", false⟩]⟩
          = some ["uintptr(flag_bool)", "uintptr(unsafe.Pointer(count))"]
      ∧ stringsContains scenarioIFooText "Syscall6" = false
      ∧ stringsContains scenarioIFooText ("v.VTable().Bar,\n" ++ "4,\n") = false := by
  decide

/-- C4 (amended). For `IFoo` with no parent and the single method
`Bar(flag bool, count intPtr*)`, `genInterface` emits a vtable type with exactly one
`uintptr` function slot (`Bar`) after the embedded base vtable `ole.IUnknownVtbl`, a
foreign call that uses 3 total slots, which is exactly tier 3 (`syscall.Syscall`, no
padding), and marshals `flag` through the integer local `flag_bool` holding 0 or 1. -/
theorem C4_roundtrip_scenario :
    emptyGenerator.genInterface scenarioIFoo =
        some ⟨[olePackage, unsafePackage, syscallPackage],
          "/////////////////////////////////////////\n" ++
          "// IFoo\n" ++
          "\n" ++
          "type IFooVtbl struct \x7b\n" ++
          "ole.IUnknownVtbl\n" ++
          "Bar uintptr\n" ++
          "\x7d\n" ++
          "\n" ++
          "type IFoo struct \x7b\n" ++
          "ole.IUnknown\n" ++
          "\x7d\n" ++
          "\n" ++
          "func (v *IFoo) VTable() *IFooVtbl \x7b\n" ++
          "return (*IFooVtbl)(unsafe.Pointer(v.RawVTable))\n" ++
          "\x7d\n" ++
          "\n" ++
          "func (v *IFoo) Bar(\n" ++
          "flag bool, // []\n" ++
          "count *intPtr, // []\n" ++
          ") error \x7b\n" ++
          "var flag_bool int\n" ++
          "if flag == true \x7b flag_bool = 1 \x7d\n" ++
          "\n" ++
          "hr, _, _ := syscall.Syscall(\n" ++
          "v.VTable().Bar,\n" ++
          "3,\n" ++
          "uintptr(unsafe.Pointer(v)),\n" ++
          "uintptr(flag_bool),\n" ++
          "uintptr(unsafe.Pointer(count)),\n" ++
          ")\n" ++
          "if hr != 0 \x7b return ole.NewError(hr) \x7d\n" ++
          "return nil\x7d\n"⟩
      ∧ specTier (2 + 1) = some 3
      ∧ selectSyscall (2 + 1) = ("Syscall", 3) := by
  decide

/-- C9. For an interface with at least one method, `genInterface` returns whenever no
parameter makes the marshaler abort, and whenever it returns, the text it has appended
starts with the banner and the vtable type `<Name>Vtbl`: its first field is the
embedded parent vtable type (`ole.IUnknownVtbl` when the parent name is absent or is
`IUnknown`, `<Parent>Vtbl` otherwise), followed by exactly one field `<Method> uintptr`
per method, in declaration order, and then the closing brace. -/
theorem C9_vtable_layout (g : Generator) (n : InterfaceNode) (hne : n.Methods ≠ []) :
    ((∀ m ∈ n.Methods, methodSlots m ≠ none) → ∃ g', g.genInterface n = some g')
      ∧ (∀ g', g.genInterface n = some g' →
          ∃ rest, g'.buf = g.buf
            ++ "/////////////////////////////////////////\n"
            ++ ("// " ++ n.Name ++ "\n")
            ++ ("\ntype " ++ n.Name ++ "Vtbl struct \x7b\n")
            ++ ((if n.ParentName = "" ∨ n.ParentName = "IUnknown" then "ole.IUnknown"
                  else n.ParentName) ++ "Vtbl\n")
            ++ concatStr (n.Methods.map (fun m => m.Name ++ " uintptr\n"))
            ++ "\x7d\n\n"
            ++ rest)
      ∧ (n.Methods.map (fun m => m.Name ++ " uintptr\n")).length = n.Methods.length := by
  refine ⟨genInterface_returns g n, ?_, List.length_map _ _⟩
  intro g' h
  obtain ⟨gs, hgs, hb⟩ := genInterface_stubs hne h
  obtain ⟨s, hs⟩ := genMethodStubs_buf n.Name n.Methods gs g' hgs
  rw [hs, hb, qualifiedParentName_eq]
  simp only [String.append_assoc]
  exact ⟨_, rfl⟩

theorem C9_vtable_layout_witness :
    (∃ g', emptyGenerator.genInterface derivedIface = some g')
      ∧ (∃ rest, derivedIfaceText = ""
            ++ "/////////////////////////////////////////\n"
            ++ ("// " ++ "IDerived" ++ "\n")
            ++ ("\ntype " ++ "IDerived" ++ "Vtbl struct \x7b\n")
            ++ ("IBase" ++ "Vtbl\n")
            ++ concatStr ["Second" ++ " uintptr\n", "Third" ++ " uintptr\n"]
            ++ "\x7d\n\n"
            ++ rest) :=
  ⟨(C9_vtable_layout emptyGenerator derivedIface (by decide)).1 (by decide),
   (C9_vtable_layout emptyGenerator derivedIface (by decide)).2.1
     ⟨[unsafePackage, syscallPackage], derivedIfaceText⟩ (by decide)⟩

theorem C6_enum_start_value_witness :
    ((genEnumLine "E" 0 ⟨"A", "0"⟩ = "A" ++ " " ++ "E" ++ " = iota\n" ∧ "0" ≠ "iota")
        ↔ ((0 : Nat) = 0 ∧ ("0" = "" ∨ "0" = "0")))
      ∧ genEnumLine "E" 1 ⟨"B", ""⟩ = "B" ++ "\n"
      ∧ genEnumLine "E" 2 ⟨"C", "7"⟩ = "C" ++ " " ++ "E" ++ " = " ++ "7" ++ "\n" :=
  ⟨(C6_enum_start_value emptyGenerator ⟨"E", [⟨"A", "0"⟩, ⟨"B", ""⟩, ⟨"C", "7"⟩]⟩ 0
      ⟨"A", "0"⟩ rfl).2.1,
   (C6_enum_start_value emptyGenerator ⟨"E", [⟨"A", "0"⟩, ⟨"B", ""⟩, ⟨"C", "7"⟩]⟩ 1
      ⟨"B", ""⟩ rfl).2.2.2.1 (by decide) rfl,
   (C6_enum_start_value emptyGenerator ⟨"E", [⟨"A", "0"⟩, ⟨"B", ""⟩, ⟨"C", "7"⟩]⟩ 2
      ⟨"C", "7"⟩ rfl).2.2.2.2 (by decide) (by decide)⟩

/-! ## Facts used by the claims about dependencies, typedefs and the preamble -/

theorem resolveType_eq_void {t : String} (h : resolveType t = "void") : t = "void" := by
  unfold resolveType at h
  split at h
  · rename_i v hl
    subst h
    rcases typeMap_mem (lookup_some_mem t _ typeMap hl) with
      h | h | h | h | h | h | h | h | h | h | h | h | h | h
    all_goals (exfalso; have h2 := h.2; revert h2; decide)
  · exact h

theorem genPackageImports_buf : ∀ (ks : List String) (g : Generator),
    (genPackageImports g ks).buf = g.buf ++ concatStr (ks.map (fun k => k ++ "\n"))
  | [], g => by simp [genPackageImports, concatStr]
  | k :: ks, g => by
    simp [genPackageImports, concatStr, genPackageImports_buf ks, Printf_buf,
      String.append_assoc]

theorem genPackageImports_packages : ∀ (ks : List String) (g : Generator),
    (genPackageImports g ks).packages = g.packages
  | [], g => rfl
  | k :: ks, g => by
    simp [genPackageImports, genPackageImports_packages ks, Printf_packages]

/-- C11 (the code evaluated at the failing input). The name `REFGUID` is resolved to
`*ole.GUID`, a type of the ole module, and `mapType` leaves the dependency set empty:
the text does not start with `ole.`.  The sibling name `GUID`, resolved to `ole.GUID`,
does register the ole import. -/
theorem C11_refguid_evaluated :
    emptyGenerator.mapType "REFGUID" = ("*ole.GUID", emptyGenerator)
      ∧ (emptyGenerator.mapType "REFGUID").2.packages = []
      ∧ emptyGenerator.mapType "GUID" = ("ole.GUID", ⟨[olePackage], ""⟩) := by
  decide

/-- C12. For a typedef whose source type maps to `void`, `genTypedef` appends the line
`type <Name> struct{}`, which is neither `type <Name> void` nor a line with an empty
type expression; for every other typedef it appends `type <Name> <mapType(Type)>`. -/
theorem C12_typedef_void (g : Generator) (n : TypedefNode) :
    (resolveType n.Typ = "void" →
        (g.genTypedef n).buf = g.buf ++ ("type " ++ n.Name ++ " " ++ "struct\x7b\x7d" ++ "\n")
          ∧ "type " ++ n.Name ++ " " ++ "struct\x7b\x7d" ++ "\n"
              ≠ "type " ++ n.Name ++ " " ++ "void" ++ "\n"
          ∧ "type " ++ n.Name ++ " " ++ "struct\x7b\x7d" ++ "\n"
              ≠ "type " ++ n.Name ++ " " ++ "" ++ "\n")
      ∧ (resolveType n.Typ ≠ "void" →
          (g.genTypedef n).buf
            = g.buf ++ ("type " ++ n.Name ++ " " ++ (g.mapType n.Typ).1 ++ "\n")) := by
  have hcancel : ∀ (a b : String), "type " ++ n.Name ++ " " ++ a ++ "\n"
      = "type " ++ n.Name ++ " " ++ b ++ "\n" → a = b := by
    intro a b h
    have h2 := congrArg String.data h
    simp only [String.data_append] at h2
    exact String.ext (List.append_cancel_left (List.append_cancel_right h2))
  constructor
  · intro hv
    refine ⟨?_, ?_, ?_⟩
    · simp only [Generator.genTypedef, mapType_fst, hv, if_true, Printf_buf, mapType_buf]
    · intro h
      exact absurd (hcancel _ _ h) (by decide)
    · intro h
      exact absurd (hcancel _ _ h) (by decide)
  · intro hv
    simp only [Generator.genTypedef, mapType_fst, if_neg hv, Printf_buf, mapType_buf]

theorem C12_typedef_void_witness :
    (( emptyGenerator.genTypedef ⟨"HANDLE", "void", 1, []⟩).buf
        = emptyGenerator.buf ++ ("type " ++ "HANDLE" ++ " " ++ "struct\x7b\x7d" ++ "\n"))
      ∧ (( emptyGenerator.genTypedef ⟨"COUNT", "DWORD", 0, []⟩).buf
        = emptyGenerator.buf
            ++ ("type " ++ "COUNT" ++ " " ++ (emptyGenerator.mapType "DWORD").1 ++ "\n")) :=
  ⟨((C12_typedef_void emptyGenerator ⟨"HANDLE", "void", 1, []⟩).1 (by decide)).1,
   (C12_typedef_void emptyGenerator ⟨"COUNT", "DWORD", 0, []⟩).2 (by decide)⟩

/-- C13. Two parameters that agree on name, type and pointer depth, and differ at most
in their attribute list and their array flag, get the same result from
`genSyscallParams`: the same slots, the same conversion code, and the same generator
state, hence the same registered dependencies (and both abort or neither does). -/
theorem C13_attributes_do_not_affect_marshaling (g : Generator) (p q : ParamNode)
    (hname : p.Name = q.Name) (htyp : p.Typ = q.Typ)
    (hind : p.Indirections = q.Indirections) :
    g.genSyscallParams p = g.genSyscallParams q := by
  rw [genSyscallParams_eq, genSyscallParams_eq]
  simp only [effectiveIndirection, hname, htyp, hind]

theorem C13_attributes_do_not_affect_marshaling_witness :
    emptyGenerator.genSyscallParams ⟨[⟨"", TokenType.IN⟩], "LPWSTR", 0, "path", false⟩
      = emptyGenerator.genSyscallParams
          ⟨[⟨"size", TokenType.OUT⟩, ⟨"", TokenType.other 3⟩], "LPWSTR", 0, "path", true⟩ :=
  C13_attributes_do_not_affect_marshaling emptyGenerator _ _ rfl rfl rfl

/-- C14. For a generator state with accumulated text `B` and duplicate-free dependency
set `D`, visited by the range loop in the order `order` (a permutation of `D`),
`genPackage p` leaves the dependency set as it is and replaces the buffer with, in this
order: the line `package p`, the import block with the fixed unicode-encoding import
followed by one line per element of `order`, the `utf16Encoder` declaration, and then
`B` unchanged.  The lines of the block are the elements of `D`, each exactly once. -/
theorem C14_output_order (g : Generator) (pkgName : String) (order : List String)
    (hperm : order.Perm g.packages) (hnodup : g.packages.Nodup) :
    (g.genPackage pkgName order).buf =
        ("package " ++ pkgName ++ "\n\n")
          ++ "import (\n"
          ++ "\"golang.org/x/text/encoding/unicode\"\n"
          ++ concatStr (order.map (fun k => k ++ "\n"))
          ++ ")\n\n"
          ++ "var utf16Encoder = unicode.UTF16(unicode.LittleEndian, unicode.IgnoreBOM).NewEncoder()\n"
          ++ "\n"
          ++ g.buf
      ∧ (g.genPackage pkgName order).packages = g.packages
      ∧ order.Nodup
      ∧ (∀ k, k ∈ order ↔ k ∈ g.packages)
      ∧ (order.map (fun k => k ++ "\n")).length = g.packages.length := by
  refine ⟨?_, ?_, hperm.nodup_iff.mpr hnodup, fun k => hperm.mem_iff, ?_⟩
  · simp only [Generator.genPackage, Printf_buf, genPackageImports_buf, String.empty_append]
  · simp only [Generator.genPackage, Printf_packages, genPackageImports_packages]
  · rw [List.length_map, hperm.length_eq]

theorem C14_output_order_witness :
    ((⟨[olePackage, unsafePackage], "type Color int\n"⟩ : Generator).genPackage "shell"
        [unsafePackage, olePackage]).buf =
        ("package " ++ "shell" ++ "\n\n")
          ++ "import (\n"
          ++ "\"golang.org/x/text/encoding/unicode\"\n"
          ++ concatStr ([unsafePackage, olePackage].map (fun k => k ++ "\n"))
          ++ ")\n\n"
          ++ "var utf16Encoder = unicode.UTF16(unicode.LittleEndian, unicode.IgnoreBOM).NewEncoder()\n"
          ++ "\n"
          ++ "type Color int\n" :=
  (C14_output_order ⟨[olePackage, unsafePackage], "type Color int\n"⟩ "shell"
    [unsafePackage, olePackage] (List.Perm.swap _ _ _) (by decide)).1

/-! ## Facts used by the claims about marshaling cases, padding and idempotence -/

theorem effectiveIndirection_nonneg {p : ParamNode} (h : 0 ≤ p.Indirections) :
    0 ≤ effectiveIndirection p := by
  unfold effectiveIndirection
  omega

/-- No value of the synonym table is a key of it. -/
theorem typeMap_value_not_key {k v : String} (h : (k, v) ∈ typeMap) :
    typeMap.lookup v = none := by
  rcases typeMap_mem h with h | h | h | h | h | h | h | h | h | h | h | h | h | h
  all_goals (obtain ⟨_, h2⟩ := h; subst h2; decide)

theorem resolveType_idem (t : String) : resolveType (resolveType t) = resolveType t := by
  cases hl : typeMap.lookup t with
  | none =>
    have e : resolveType t = t := by simp only [resolveType, hl]
    rw [e, e]
  | some v =>
    have e : resolveType t = v := by simp only [resolveType, hl]
    have hv : typeMap.lookup v = none := typeMap_value_not_key (lookup_some_mem t v typeMap hl)
    rw [e]
    simp only [resolveType, hv]

theorem addPackage_mem (g : Generator) (pkg : String) : pkg ∈ (g.addPackage pkg).packages := by
  unfold Generator.addPackage
  split_ifs with h
  · exact h
  · simp

theorem addPackage_idem (g : Generator) (pkg : String) :
    (g.addPackage pkg).addPackage pkg = g.addPackage pkg := by
  have hm := addPackage_mem g pkg
  generalize g.addPackage pkg = g1 at hm
  simp only [Generator.addPackage, if_pos hm]

/-- A parameter that is not a `VARIANT` passed by value has exactly one slot, which is
also what `paramSlots` gives for it. -/
theorem genSyscallParams_single {g : Generator} {p : ParamNode}
    {r : (List String × String) × Generator} (h : g.genSyscallParams p = some r)
    (hv : ¬ (resolveType p.Typ = "VARIANT" ∧ effectiveIndirection p = 0)) :
    ∃ s, r.1.1 = [s] ∧ paramSlots p = some [s] := by
  have hf := genSyscallParams_fst emptyGenerator g p
  rw [h] at hf
  have hp : paramSlots p = some r.1.1 := by
    unfold paramSlots
    cases h0 : Generator.genSyscallParams ⟨[], ""⟩ p with
    | none =>
      rw [show emptyGenerator = (⟨[], ""⟩ : Generator) from rfl, h0] at hf
      simp at hf
    | some r0 =>
      rw [show emptyGenerator = (⟨[], ""⟩ : Generator) from rfl, h0] at hf
      simp only [Option.map_some', Option.some.injEq] at hf
      simp only [Option.map_some', hf]
  rw [genSyscallParams_eq, if_neg hv] at h
  split_ifs at h <;> simp only [Option.some.injEq] at h <;> subst h <;>
    exact ⟨_, rfl, hp⟩

/-- Without a `VARIANT` passed by value, the second loop of a stub appends exactly one
slot per parameter, in parameter order. -/
theorem genStubSyscallParams_single : ∀ (ps : List ParamNode) (g : Generator)
    (acc : List String) (r : List String × Generator),
    genStubSyscallParams g acc ps = some r →
    (∀ p ∈ ps, ¬ (resolveType p.Typ = "VARIANT" ∧ effectiveIndirection p = 0)) →
    ∃ tail, r.1 = acc ++ tail ∧ ps.map paramSlots = tail.map (fun s => some [s])
  | [], g, acc, r, h, _ => by
    simp only [genStubSyscallParams, Option.some.injEq] at h
    subst h
    exact ⟨[], by simp, by simp⟩
  | q :: ps, g, acc, r, h, hv => by
    simp only [genStubSyscallParams] at h
    split at h
    · simp at h
    · rename_i r1 h1
      obtain ⟨s, hs, hps⟩ := genSyscallParams_single h1 (hv q (List.mem_cons_self _ _))
      obtain ⟨tail, ht, hmap⟩ := genStubSyscallParams_single ps _ _ r h
        (fun x hx => hv x (List.mem_cons_of_mem _ hx))
      refine ⟨s :: tail, ?_, ?_⟩
      · rw [ht, hs]
        simp
      · simp only [List.map_cons, hps, hmap]

/-- Up to a total of 9 the if-chain of `genInterface` selects the tier of the spec. -/
theorem selectSyscall_specTier : ∀ total, total < 10 →
    specTier total = some (selectSyscall total).2 := by
  decide

/-- The whole text of a call stub. -/
theorem genMethodStub_text {g g' : Generator} {ifaceName : String} {m : MethodNode}
    (h : genMethodStub g ifaceName m = some g') :
    ∃ r params convs, genStubSyscallParams
          ((genStubParams (g.Printf ("func (v *" ++ ifaceName ++ ") " ++ m.Name ++ "(\n"))
            m.Params).Printf ") error \x7b\n") [] m.Params = some r
      ∧ g'.buf = g.buf
          ++ ("func (v *" ++ ifaceName ++ ") " ++ m.Name ++ "(\n")
          ++ params
          ++ ") error \x7b\n"
          ++ convs
          ++ ("hr, _, _ := syscall." ++ (selectSyscall (m.Params.length + 1)).1 ++ "(\n")
          ++ ("v.VTable()." ++ m.Name ++ ",\n")
          ++ (fmtInt ((padSyscallParams r.1 (selectSyscall (m.Params.length + 1)).2).length + 1)
                ++ ",\n")
          ++ "uintptr(unsafe.Pointer(v)),\n"
          ++ concatStr ((padSyscallParams r.1 (selectSyscall (m.Params.length + 1)).2).map
                (fun s => s ++ ",\n"))
          ++ ")\n"
          ++ "if hr != 0 \x7b return ole.NewError(hr) \x7d\n"
          ++ "return nil"
          ++ "\x7d\n" := by
  obtain ⟨r, hr, hb⟩ := genMethodStub_some h
  obtain ⟨s1, hs1⟩ := genStubSyscallParams_buf _ _ _ _ hr
  obtain ⟨s2, hs2⟩ := genStubParams_buf m.Params
    (g.Printf ("func (v *" ++ ifaceName ++ ") " ++ m.Name ++ "(\n"))
  rw [Printf_buf, hs2, Printf_buf] at hs1
  refine ⟨r, s2, s1, hr, ?_⟩
  rw [hb, hs1]

/-- C15. For a parameter of the data model (its pointer depth is not negative),
`genSyscallParams` aborts if and only if the resolved representation is `string`, the
effective indirection is zero, and the declared type is neither `LPWSTR` nor
`LPCWSTR`; on every other parameter it returns a slot list. -/
theorem C15_unsupported_construct (g : Generator) (p : ParamNode)
    (hdepth : 0 ≤ p.Indirections) :
    (g.genSyscallParams p = none ↔
        (resolveType p.Typ = "string" ∧ effectiveIndirection p = 0
          ∧ p.Typ ≠ "LPWSTR" ∧ p.Typ ≠ "LPCWSTR"))
      ∧ (¬ (resolveType p.Typ = "string" ∧ effectiveIndirection p = 0
            ∧ p.Typ ≠ "LPWSTR" ∧ p.Typ ≠ "LPCWSTR") →
          ∃ slots code g', g.genSyscallParams p = some ((slots, code), g')) := by
  have hnn := effectiveIndirection_nonneg hdepth
  have hiff : g.genSyscallParams p = none ↔
      (resolveType p.Typ = "string" ∧ effectiveIndirection p = 0
        ∧ p.Typ ≠ "LPWSTR" ∧ p.Typ ≠ "LPCWSTR") := by
    rw [genSyscallParams_eq]
    constructor
    · intro h
      split_ifs at h with h1 h2 h3 h4 h5
      exact ⟨h4, by omega, fun e => h5 (Or.inl e), fun e => h5 (Or.inr e)⟩
    · rintro ⟨hs, hz, hl, hc⟩
      have hv : ¬ ("string" = "VARIANT") := by decide
      have hb : ¬ ("string" = "bool") := by decide
      have hpos : ¬ (effectiveIndirection p > 0) := by omega
      have hlc : ¬ (p.Typ = "LPWSTR" ∨ p.Typ = "LPCWSTR") := fun e => e.elim hl hc
      simp only [hs, hv, hb, false_and, if_false, if_neg hpos, if_true, if_neg hlc]
  refine ⟨hiff, ?_⟩
  intro hn
  cases hres : g.genSyscallParams p with
  | none => exact absurd (hiff.mp hres) hn
  | some r => exact ⟨r.1.1, r.1.2, r.2, rfl⟩

theorem C15_unsupported_construct_witness :
    (emptyGenerator.genSyscallParams ⟨[], "string", 0, "title", false⟩ = none ↔
        (resolveType "string" = "string"
          ∧ effectiveIndirection ⟨[], "string", 0, "title", false⟩ = 0
          ∧ "string" ≠ "LPWSTR" ∧ "string" ≠ "LPCWSTR"))
      ∧ (∃ slots code g',
          emptyGenerator.genSyscallParams ⟨[], "LPWSTR", 0, "title", false⟩
            = some ((slots, code), g')) :=
  ⟨(C15_unsupported_construct emptyGenerator ⟨[], "string", 0, "title", false⟩
      (by decide)).1,
   (C15_unsupported_construct emptyGenerator ⟨[], "LPWSTR", 0, "title", false⟩
      (by decide)).2 (by decide)⟩

/-- C16. For every method of an interface that `genInterface` emits, the buffer
contains the stub of the method: a function whose only result is `error`, that binds
only the first of the three result words of the foreign call (`hr, _, _ :=`), returns
`ole.NewError(hr)` under the condition `hr != 0`, and otherwise returns `nil`. -/
theorem C16_status_mapping (g g' : Generator) (n : InterfaceNode) (m : MethodNode)
    (hm : m ∈ n.Methods) (h : g.genInterface n = some g') :
    ∃ slots before params convs after, methodSlots m = some slots
      ∧ g'.buf = before
          ++ ("func (v *" ++ n.Name ++ ") " ++ m.Name ++ "(\n")
          ++ params
          ++ ") error \x7b\n"
          ++ convs
          ++ ("hr, _, _ := syscall." ++ (selectSyscall (m.Params.length + 1)).1 ++ "(\n")
          ++ ("v.VTable()." ++ m.Name ++ ",\n")
          ++ (fmtInt ((padSyscallParams slots
                (selectSyscall (m.Params.length + 1)).2).length + 1) ++ ",\n")
          ++ "uintptr(unsafe.Pointer(v)),\n"
          ++ concatStr ((padSyscallParams slots (selectSyscall (m.Params.length + 1)).2).map
                (fun s => s ++ ",\n"))
          ++ ")\n"
          ++ "if hr != 0 \x7b return ole.NewError(hr) \x7d\n"
          ++ "return nil"
          ++ "\x7d\n"
          ++ after := by
  have hne : n.Methods ≠ [] := List.ne_nil_of_mem hm
  obtain ⟨gs, hgs, _⟩ := genInterface_stubs hne h
  obtain ⟨gm, gm', post, hstub, hpost⟩ := genMethodStubs_mem n.Name n.Methods gs g' hgs m hm
  obtain ⟨r, params, convs, hr, hb⟩ := genMethodStub_text hstub
  exact ⟨r.1, gm.buf, params, convs, post, methodSlots_of_stub hr, by rw [hpost, hb]⟩

theorem C16_status_mapping_witness :
    ∃ slots before params convs after, methodSlots ⟨"Ping", none, []⟩ = some slots
      ∧ pingIfaceText = before
          ++ ("func (v *" ++ "IPing" ++ ") " ++ "Ping" ++ "(\n")
          ++ params
          ++ ") error \x7b\n"
          ++ convs
          ++ ("hr, _, _ := syscall." ++ (selectSyscall (0 + 1)).1 ++ "(\n")
          ++ ("v.VTable()." ++ "Ping" ++ ",\n")
          ++ (fmtInt ((padSyscallParams slots (selectSyscall (0 + 1)).2).length + 1) ++ ",\n")
          ++ "uintptr(unsafe.Pointer(v)),\n"
          ++ concatStr ((padSyscallParams slots (selectSyscall (0 + 1)).2).map
                (fun s => s ++ ",\n"))
          ++ ")\n"
          ++ "if hr != 0 \x7b return ole.NewError(hr) \x7d\n"
          ++ "return nil"
          ++ "\x7d\n"
          ++ after :=
  C16_status_mapping emptyGenerator
    ⟨[olePackage, unsafePackage, syscallPackage], pingIfaceText⟩
    pingIface ⟨"Ping", none, []⟩ (by decide) (by decide)

/-- C17. The effective indirection that `genSyscallParams` computes is the declared
pointer depth plus the number of `*` in the type that `mapType` returns, and for every
parameter whose effective indirection is positive, `genSyscallParams` returns exactly
the one slot `uintptr(unsafe.Pointer(<name>))` with empty conversion code. -/
theorem C17_effective_indirection (g : Generator) (p : ParamNode)
    (hpos : effectiveIndirection p > 0) :
    effectiveIndirection p
        = p.Indirections + ((stringsCount (g.mapType p.Typ).1 '*' : Nat) : Int)
      ∧ g.genSyscallParams p
        = some ((["uintptr(unsafe.Pointer(" ++ p.Name ++ "))"], ""), (g.mapType p.Typ).2) := by
  constructor
  · rw [mapType_fst, effectiveIndirection]
  · have hz : ¬ (effectiveIndirection p = 0) := by omega
    rw [genSyscallParams_eq]
    simp only [hz, and_false, if_false, if_pos hpos]

theorem C17_effective_indirection_witness :
    (emptyGenerator.genSyscallParams ⟨[], "UINT_PTR", 0, "id", false⟩
        = some ((["uintptr(unsafe.Pointer(" ++ "id" ++ "))"], ""),
            (emptyGenerator.mapType "UINT_PTR").2))
      ∧ (emptyGenerator.genSyscallParams ⟨[], "REFGUID", 0, "riid", false⟩
        = some ((["uintptr(unsafe.Pointer(" ++ "riid" ++ "))"], ""),
            (emptyGenerator.mapType "REFGUID").2))
      ∧ (emptyGenerator.genSyscallParams ⟨[], "LPWSTR", 1, "name", false⟩
        = some ((["uintptr(unsafe.Pointer(" ++ "name" ++ "))"], ""),
            (emptyGenerator.mapType "LPWSTR").2))
      ∧ (emptyGenerator.genSyscallParams ⟨[], "VARIANT", 1, "val", false⟩
        = some ((["uintptr(unsafe.Pointer(" ++ "val" ++ "))"], ""),
            (emptyGenerator.mapType "VARIANT").2)) :=
  ⟨(C17_effective_indirection emptyGenerator ⟨[], "UINT_PTR", 0, "id", false⟩
      (by decide)).2,
   (C17_effective_indirection emptyGenerator ⟨[], "REFGUID", 0, "riid", false⟩
      (by decide)).2,
   (C17_effective_indirection emptyGenerator ⟨[], "LPWSTR", 1, "name", false⟩
      (by decide)).2,
   (C17_effective_indirection emptyGenerator ⟨[], "VARIANT", 1, "val", false⟩
      (by decide)).2⟩

/-- C18. For every method of an emitted interface that has at most 8 parameters, none
of which is a `VARIANT` passed by value, every parameter has exactly one slot, and the
argument list printed after the receiver consists of these slots in parameter order
followed only by literal `0` entries; it has exactly `tier - 1` entries, where `tier`
is the smallest of 3, 6, 9 that is at least the number of parameters plus one. -/
theorem C18_padding_to_tier (g g' : Generator) (n : InterfaceNode) (m : MethodNode)
    (hm : m ∈ n.Methods) (h : g.genInterface n = some g') (hlen : m.Params.length ≤ 8)
    (hv : ∀ p ∈ m.Params, ¬ (resolveType p.Typ = "VARIANT" ∧ effectiveIndirection p = 0)) :
    ∃ slots tier before after,
      m.Params.map paramSlots = slots.map (fun s => some [s])
      ∧ specTier (m.Params.length + 1) = some tier
      ∧ (slots ++ List.replicate (tier - 1 - m.Params.length) "0").length = tier - 1
      ∧ g'.buf = before
          ++ "uintptr(unsafe.Pointer(v)),\n"
          ++ concatStr ((slots ++ List.replicate (tier - 1 - m.Params.length) "0").map
                (fun s => s ++ ",\n"))
          ++ ")\n"
          ++ after := by
  have hne : n.Methods ≠ [] := List.ne_nil_of_mem hm
  obtain ⟨gs, hgs, _⟩ := genInterface_stubs hne h
  obtain ⟨gm, gm', post, hstub, hpost⟩ := genMethodStubs_mem n.Name n.Methods gs g' hgs m hm
  obtain ⟨r, hr, hb⟩ := genMethodStub_some hstub
  obtain ⟨tail, ht, hmap⟩ := genStubSyscallParams_single m.Params _ [] r hr hv
  rw [List.nil_append] at ht
  have hl : r.1.length = m.Params.length := by
    have e := congrArg List.length hmap
    rw [List.length_map, List.length_map] at e
    rw [ht, ← e]
  have htier := selectSyscall_specTier (m.Params.length + 1) (by omega)
  have hge : m.Params.length + 1 ≤ (selectSyscall (m.Params.length + 1)).2 := by
    unfold selectSyscall
    split_ifs <;> simp only <;> omega
  refine ⟨r.1, (selectSyscall (m.Params.length + 1)).2, ?_, ?_, ?_, htier, ?_, ?_⟩
  · exact r.2.buf
      ++ ("hr, _, _ := syscall." ++ (selectSyscall (m.Params.length + 1)).1 ++ "(\n")
      ++ ("v.VTable()." ++ m.Name ++ ",\n")
      ++ (fmtInt ((padSyscallParams r.1 (selectSyscall (m.Params.length + 1)).2).length + 1)
            ++ ",\n")
  · exact "if hr != 0 \x7b return ole.NewError(hr) \x7d\n" ++ "return nil" ++ "\x7d\n" ++ post
  · rw [ht]
    exact hmap
  · rw [List.length_append, List.length_replicate, hl]
    omega
  · rw [hpost, hb]
    simp only [padSyscallParams, hl, String.append_assoc]

theorem C18_padding_to_tier_witness :
    (∃ slots tier before after,
      [paramSlots ⟨[], "IShellItem", 1, "psi", false⟩,
        paramSlots ⟨[], "DWORD", 0, "hint", false⟩,
        paramSlots ⟨[], "int", 1, "piOrder", false⟩]
        = slots.map (fun s => some [s])
      ∧ specTier (3 + 1) = some tier
      ∧ (slots ++ List.replicate (tier - 1 - 3) "0").length = tier - 1
      ∧ compareIfaceText = before
          ++ "uintptr(unsafe.Pointer(v)),\n"
          ++ concatStr ((slots ++ List.replicate (tier - 1 - 3) "0").map
                (fun s => s ++ ",\n"))
          ++ ")\n"
          ++ after)
      ∧ (∃ slots tier before after,
        [paramSlots ⟨[], "LONG", 0, "n", false⟩] = slots.map (fun s => some [s])
        ∧ specTier (1 + 1) = some tier
        ∧ (slots ++ List.replicate (tier - 1 - 1) "0").length = tier - 1
        ∧ derivedIfaceText = before
            ++ "uintptr(unsafe.Pointer(v)),\n"
            ++ concatStr ((slots ++ List.replicate (tier - 1 - 1) "0").map
                  (fun s => s ++ ",\n"))
            ++ ")\n"
            ++ after)
      ∧ specTier (3 + 1) = some 6
      ∧ List.replicate (6 - 1 - 3) "0" = ["0", "0"]
      ∧ stringsContains compareIfaceText
          ("uintptr(unsafe.Pointer(v)),\n" ++ "uintptr(unsafe.Pointer(psi)),\n"
            ++ "uintptr(hint),\n" ++ "uintptr(unsafe.Pointer(piOrder)),\n"
            ++ "0,\n" ++ "0,\n" ++ ")\n") = true
      ∧ specTier (1 + 1) = some 3
      ∧ List.replicate (3 - 1 - 1) "0" = ["0"]
      ∧ stringsContains derivedIfaceText
          ("uintptr(unsafe.Pointer(v)),\n" ++ "uintptr(n),\n" ++ "0,\n" ++ ")\n") = true :=
  ⟨C18_padding_to_tier emptyGenerator
      ⟨[olePackage, unsafePackage, syscallPackage], compareIfaceText⟩ compareIface
      ⟨"Compare", none,
        [⟨[], "IShellItem", 1, "psi", false⟩, ⟨[], "DWORD", 0, "hint", false⟩,
          ⟨[], "int", 1, "piOrder", false⟩]⟩
      (by decide) (by decide) (by decide) (by decide),
   C18_padding_to_tier emptyGenerator
      ⟨[unsafePackage, syscallPackage], derivedIfaceText⟩ derivedIface
      ⟨"Third", none, [⟨[], "LONG", 0, "n", false⟩]⟩
      (by decide) (by decide) (by decide) (by decide),
   by decide, by decide, by decide, by decide, by decide, by decide⟩

/-- C19 (the code evaluated at the failing input). For the interface `IDerived` with
parent `IBase`, whose parameters map into no external module, the dependency set after
`genInterface` holds the imports of `unsafe` and `syscall` only: the import of ole is
not registered, although the emitted stubs call `ole.NewError`. -/
theorem C19_ole_not_registered_evaluated :
    emptyGenerator.genInterface derivedIface
        = some ⟨[unsafePackage, syscallPackage], derivedIfaceText⟩
      ∧ olePackage ∉ [unsafePackage, syscallPackage]
      ∧ stringsContains derivedIfaceText "return ole.NewError(hr)" = true := by
  decide

/-- C20. `mapType` is idempotent: applied to its own result, in the state it has left,
it returns the same name and leaves that state, hence the dependency set, unchanged;
no value of the synonym table `typeMap` is a key of it. -/
theorem C20_mapType_idempotent (g : Generator) (t : String) :
    ((g.mapType t).2.mapType (g.mapType t).1).1 = (g.mapType t).1
      ∧ ((g.mapType t).2.mapType (g.mapType t).1).2 = (g.mapType t).2
      ∧ (∀ k v, (k, v) ∈ typeMap → ∀ w, (v, w) ∉ typeMap) := by
  refine ⟨?_, ?_, ?_⟩
  · rw [mapType_fst, mapType_fst, resolveType_idem]
  · rw [mapType_snd, mapType_fst, resolveType_idem, mapType_snd]
    split_ifs <;> simp only [addPackage_idem]
  · intro k v hkv w
    exact lookup_none_not_mem v typeMap (typeMap_value_not_key hkv) w

theorem C20_mapType_idempotent_witness :
    ((emptyGenerator.mapType "GUID").2.mapType (emptyGenerator.mapType "GUID").1).2
        = (emptyGenerator.mapType "GUID").2
      ∧ ("ole.GUID", "int32") ∉ typeMap :=
  ⟨(C20_mapType_idempotent emptyGenerator "GUID").2.1,
   (C20_mapType_idempotent emptyGenerator "GUID").2.2 "GUID" "ole.GUID" (by decide) "int32"⟩

end Gomidl
